import Mathlib

/-!
Verification of the goal-tree resolution and state-evaluation engine of the
glosses4learning CMS.  The definitions below are a shallow embedding of
`app/shared/glosses/goalLogic.ts`, `app/renderer/entities/glosses/treeBuilder.ts`,
the batch exporter (`situationHandlers`), and the relation operations of
`app/main-process/storage/fsGlossStorage.ts`.  The theorems settle the claims
about this engine.
-/

/-! ### JavaScript string primitives

The TypeScript code uses `String.prototype.split(':')`, `trim()`,
`toLowerCase()` and `includes(...)`.  These are modelled on the character
list of the string so that all definitions compute by kernel reduction. -/

/-- JS `str.split(c)` for a single-character separator. -/
def jsSplit (sep : Char) (s : String) : List String :=
  (s.toList.splitOn sep).map (fun cs => String.mk cs)

/-- JS `str.trim()`: strip leading and trailing whitespace. -/
def jsTrim (s : String) : String :=
  String.mk (((s.toList.dropWhile Char.isWhitespace).reverse.dropWhile Char.isWhitespace).reverse)

/-- JS `str.toLowerCase()` (ASCII case mapping, which is all the code relies on). -/
def jsToLower (s : String) : String :=
  String.mk (s.toList.map Char.toLower)

/-- Does `pat` occur as a contiguous run inside `s`? -/
def listInfix : List Char → List Char → Bool
  | pat, [] => pat.isEmpty
  | pat, c :: t => pat.isPrefixOf (c :: t) || listInfix pat t

/-- JS `str.includes(pat)` for the non-empty marker strings used by the code:
a substring of `s` is an infix of its character list. -/
def containsSubstr (s pat : String) : Bool :=
  listInfix pat.toList s.toList

/-- JS `arr.join(sep)`. -/
def jsJoin (sep : String) : List String → String
  | [] => ""
  | [x] => x
  | x :: y :: xs => x ++ sep ++ jsJoin sep (y :: xs)

/-- JS first-occurrence deduplication `[...new Set(list)]` (helper). -/
def jsSetDedupAux : List String → List String → List String
  | [], _ => []
  | x :: xs, seen => if seen.contains x then jsSetDedupAux xs seen else x :: jsSetDedupAux xs (x :: seen)

/-- JS `[...new Set(list)]`: keep the first occurrence of each element. -/
def jsSetDedup (l : List String) : List String := jsSetDedupAux l []

/-! ### Data model

`Gloss` mirrors the record of `app/main-process/storage/types.ts` (same field
list as `fsGlossStorage.fromDict`).  Reference lists are lists of `lang:slug`
strings.  `logs` keeps the log values only (the logic reads nothing but
`Object.values(logs)`), and an empty `slug` models a missing one, matching
JavaScript falsiness of `''`/`undefined`. -/

structure Gloss where
  content : String := ""
  language : String := ""
  slug : String := ""
  tags : List String := []
  parts : List String := []
  translations : List String := []
  usage_examples : List String := []
  children : List String := []
  notes : List String := []
  morphologically_related : List String := []
  has_similar_meaning : List String := []
  sounds_similar : List String := []
  to_be_differentiated_from : List String := []
  collocations : List String := []
  typical_follow_up : List String := []
  logs : List String := []
  needsHumanCheck : Bool := false
  excludeFromLearning : Bool := false
deriving DecidableEq, Repr

/-- The gloss store models the filesystem of record of `fsGlossStorage.ts`:
one entry per gloss file, keyed by the (language directory, slug file name)
pair produced by `pathFor`. -/
abbrev Store := List ((String × String) × Gloss)

/-- `GlossStorage.pathFor` / `languageDir`: the file location of a gloss. -/
def pathFor (language slug : String) : String × String :=
  (jsTrim (jsToLower language), slug)

/-- Look up a file in the store. -/
def storeFind (store : Store) (key : String × String) : Option Gloss :=
  (store.find? (fun e => e.1 == key)).map (fun e => e.2)

/-- `GlossStorage.loadGloss`: read the file and rebuild the gloss via
`fromDict(data, slug, language)`, which overrides `slug` with the file name
and `language` with the lowercased requested language. -/
def loadGloss (store : Store) (language slug : String) : Option Gloss :=
  match storeFind store (pathFor language slug) with
  | none => none
  | some d => some { d with language := jsToLower language, slug := slug }

/-- `GlossStorage.resolveReference`: parse `lang:slug`, reject malformed
references, and load the gloss. -/
def resolveReference (store : Store) (ref : String) : Option Gloss :=
  match jsSplit ':' ref with
  | [] => none
  | [_] => none
  | lang :: rest =>
    let language := jsTrim lang
    let slug := jsTrim (jsJoin ":" rest)
    if language = "" ∨ slug = "" then none
    else loadGloss store language slug

/-! ### goalLogic.ts -/

def SPLIT_LOG_MARKER : String := "SPLIT_CONSIDERED_UNNECESSARY"
def TRANSLATION_IMPOSSIBLE_MARKER : String := "TRANSLATION_CONSIDERED_IMPOSSIBLE"
def USAGE_IMPOSSIBLE_MARKER : String := "USAGE_EXAMPLE_CONSIDERED_IMPOSSIBLE"

/-- `normalizeLanguageCode`: `(code || '').trim().toLowerCase()`. -/
def normalizeLanguageCode (code : String) : String := jsToLower (jsTrim code)

/-- `glossRef`: the string identity of a gloss. -/
def glossRef (g : Gloss) : String :=
  g.language ++ ":" ++ (if g.slug = "" then g.content else g.slug)

/-- `hasLog`: some log value contains the marker as a substring. -/
def hasLog (g : Gloss) (marker : String) : Bool :=
  g.logs.any (fun val => containsSubstr val marker)

inductive GoalType where
  | procedural
  | understanding
deriving DecidableEq, Repr

/-- `detectGoalType`: classify a gloss as a goal for the language pair. -/
def detectGoalType (g : Gloss) (nativeLanguage targetLanguage : String) : Option GoalType :=
  let lang := normalizeLanguageCode g.language
  let native := normalizeLanguageCode nativeLanguage
  let target := normalizeLanguageCode targetLanguage
  let tags := g.tags
  if lang == native && tags.contains "eng:procedural-paraphrase-expression-goal" then
    some GoalType.procedural
  else if lang == target && tags.contains "eng:understand-expression-goal" then
    some GoalType.understanding
  else
    none

/-- `usageExamples`: resolve the usage-example references of a gloss. -/
def usageExamples (store : Store) (g : Gloss) : List Gloss :=
  g.usage_examples.filterMap (fun ref => resolveReference store ref)

/-- language of a reference: `normalizeLanguageCode(ref.split(':')[0])`. -/
def refLang (ref : String) : String :=
  normalizeLanguageCode ((jsSplit ':' ref).headD "")

/-- `resolvedTranslations`: translations of `g` into `lang` that resolve,
optionally excluding paraphrase-tagged ones. -/
def resolvedTranslations (store : Store) (g : Gloss) (lang : String)
    (requireNonParaphrase : Bool := false) : List Gloss :=
  g.translations.filterMap (fun ref =>
    if refLang ref != lang then none
    else
      match resolveReference store ref with
      | none => none
      | some tGloss =>
        if requireNonParaphrase && tGloss.tags.contains "eng:paraphrase" then none
        else some tGloss)

structure PartsCheckResult where
  ok : Bool
  missingTranslations : List String
  missingParts : List String
  missingUsage : List String
deriving DecidableEq, Repr

/-! ### Termination infrastructure for the parts recursion

`standardPartsCheck` (and the tree builder below) recurse through `parts`
references resolved from the store, guarded by the visited path.  Every
resolved gloss takes its identity from its reference string, so the set of
identities reachable through `parts` edges is bounded by the references
stored in `parts` fields; the measure counts those identities not yet on
the path. -/

/-- The `glossRef` identity that a reference string resolves to, if any. -/
def refTarget (store : Store) (ref : String) : Option String :=
  (resolveReference store ref).map glossRef

/-- All gloss identities reachable by resolving a `parts` entry of any
stored gloss. -/
def storePartRefs (store : Store) : List String :=
  (store.flatMap (fun e => e.2.parts)).filterMap (refTarget store)

/-- Measure for a worklist of part references under a visited path. -/
def partsRefsMeasure (store : Store) (refs : List String) (path : List String) : Nat :=
  ((storePartRefs store ++ refs.filterMap (refTarget store)).toFinset \ path.toFinset).card

theorem storeFind_mem {store : Store} {key : String × String} {d : Gloss}
    (h : storeFind store key = some d) : ∃ e ∈ store, e.2 = d := by
  unfold storeFind at h
  rcases Option.map_eq_some'.mp h with ⟨e, he, hev⟩
  exact ⟨e, List.mem_of_find?_eq_some he, hev⟩

theorem loadGloss_parts {store : Store} {language slug : String} {p : Gloss}
    (h : loadGloss store language slug = some p) :
    ∃ e ∈ store, p.parts = e.2.parts := by
  unfold loadGloss at h
  cases hf : storeFind store (pathFor language slug) with
  | none => rw [hf] at h; exact absurd h (by simp)
  | some d =>
    rw [hf] at h
    obtain ⟨e, he, hev⟩ := storeFind_mem hf
    refine ⟨e, he, ?_⟩
    have hp : { d with language := jsToLower language, slug := slug } = p := by
      exact Option.some.inj h
    rw [← hp, hev]

theorem resolveReference_parts {store : Store} {ref : String} {p : Gloss}
    (h : resolveReference store ref = some p) :
    ∃ e ∈ store, p.parts = e.2.parts := by
  unfold resolveReference at h
  split at h
  · exact absurd h (by simp)
  · exact absurd h (by simp)
  · dsimp only at h
    split at h
    · exact absurd h (by simp)
    · exact loadGloss_parts h

theorem mem_storePartRefs {store : Store} {ref r x : String} {p : Gloss}
    (h : resolveReference store ref = some p) (hr : r ∈ p.parts)
    (hx : refTarget store r = some x) : x ∈ storePartRefs store := by
  obtain ⟨e, he, hparts⟩ := resolveReference_parts h
  unfold storePartRefs
  rw [List.mem_filterMap]
  refine ⟨r, ?_, hx⟩
  rw [List.mem_flatMap]
  exact ⟨e, he, by rw [← hparts]; exact hr⟩

theorem finsetCardLtOfMissing {A B : Finset String} {a : String}
    (hsub : A ⊆ B) (haB : a ∈ B) (haA : a ∉ A) : A.card < B.card :=
  Finset.card_lt_card ((Finset.ssubset_iff_of_subset hsub).mpr ⟨a, haB, haA⟩)

/-- Entering a freshly resolved part strictly shrinks the measure. -/
theorem partsRefsMeasure_lt {store : Store} {ref : String} {rest path : List String} {p : Gloss}
    (hres : resolveReference store ref = some p) (hnp : glossRef p ∉ path) :
    partsRefsMeasure store p.parts (glossRef p :: path) <
      partsRefsMeasure store (ref :: rest) path := by
  unfold partsRefsMeasure
  apply finsetCardLtOfMissing (a := glossRef p)
  · intro x hx
    simp only [Finset.mem_sdiff, List.mem_toFinset, List.mem_append, List.mem_cons,
      List.mem_filterMap] at hx ⊢
    obtain ⟨hin, hnot⟩ := hx
    push_neg at hnot
    obtain ⟨hne, hnpath⟩ := hnot
    refine ⟨?_, hnpath⟩
    rcases hin with hin | ⟨r, hr, hrt⟩
    · exact Or.inl hin
    · exact Or.inl (mem_storePartRefs hres hr hrt)
  · simp only [Finset.mem_sdiff, List.mem_toFinset, List.mem_append, List.mem_filterMap]
    refine ⟨Or.inr ⟨ref, List.mem_cons_self ref rest, ?_⟩, hnp⟩
    unfold refTarget
    rw [hres]
    rfl
  · simp only [Finset.mem_sdiff, List.mem_toFinset, not_and, not_not]
    intro _
    exact List.mem_cons_self _ _

/-- Dropping the head reference can only shrink the measure. -/
theorem partsRefsMeasure_le {store : Store} {ref : String} {rest path : List String} :
    partsRefsMeasure store rest path ≤ partsRefsMeasure store (ref :: rest) path := by
  unfold partsRefsMeasure
  apply Finset.card_le_card
  intro x hx
  simp only [Finset.mem_sdiff, List.mem_toFinset, List.mem_append, List.mem_filterMap,
    List.mem_cons] at hx ⊢
  obtain ⟨hin, hnot⟩ := hx
  refine ⟨?_, hnot⟩
  rcases hin with hin | ⟨r, hr, hrt⟩
  · exact Or.inl hin
  · exact Or.inr ⟨r, Or.inr hr, hrt⟩

theorem prodLexOfLe {a a' b b' : Nat} (h1 : a' ≤ a) (h2 : b' < b) :
    Prod.Lex (· < ·) (· < ·) (a', b') (a, b) := by
  rcases lt_or_eq_of_le h1 with h | h
  · exact Prod.Lex.left _ _ h
  · subst h
    exact Prod.Lex.right _ h2

/-! ### standardPartsCheck

The TypeScript function checks the gloss itself (parts presence, translation
into the counterpart language, usage examples for target-language glosses)
and then folds the recursive results of its resolved parts into the
accumulated result.  `spcBody` is the per-gloss check, `spcCombine` the
(associative, unit-preserving) aggregation step, and `spcList` the recursion
over the `parts` reference lists; `standardPartsCheck` assembles them exactly
as the source does. -/

/-- Result of a gloss that contributes nothing (back-edge or empty list). -/
def spcOk : PartsCheckResult := ⟨true, [], [], []⟩

/-- Fold one child result into the accumulated result, as the source's
`res.ok &&= child.ok; res.xs.push(...child.xs)` loop does. -/
def spcCombine (a b : PartsCheckResult) : PartsCheckResult :=
  ⟨a.ok && b.ok, a.missingTranslations ++ b.missingTranslations,
    a.missingParts ++ b.missingParts, a.missingUsage ++ b.missingUsage⟩

/-- The non-recursive checks of `standardPartsCheck` on one gloss:
parts presence, counterpart translation, and the usage-example requirement. -/
def spcBody (store : Store) (native target : String) (gloss : Gloss)
    (skipUsageForRoot : Bool) : PartsCheckResult :=
  let ref := glossRef gloss
  let lang := normalizeLanguageCode gloss.language
  let counterpart : Option String :=
    if lang == target then some native
    else if lang == native then some target
    else none
  let hasParts := !gloss.parts.isEmpty || hasLog gloss SPLIT_LOG_MARKER
  let res0 : PartsCheckResult :=
    if hasParts then ⟨true, [], [], []⟩ else ⟨false, [], [ref], []⟩
  let res1 :=
    match counterpart with
    | none => res0
    | some cp =>
      let translations := resolvedTranslations store gloss cp (lang == native)
      if translations.isEmpty && !hasLog gloss (TRANSLATION_IMPOSSIBLE_MARKER ++ ":" ++ cp) then
        { res0 with ok := false, missingTranslations := res0.missingTranslations ++ [ref] }
      else res0
  let shouldCheckUsage := lang == target && !skipUsageForRoot
  if shouldCheckUsage then
    let hasUsage := !gloss.usage_examples.isEmpty ||
      hasLog gloss (USAGE_IMPOSSIBLE_MARKER ++ ":" ++ target)
    let resA :=
      if hasUsage then res1
      else { res1 with ok := false, missingUsage := res1.missingUsage ++ [ref] }
    (usageExamples store gloss).foldl (fun acc uGloss =>
      let uTrans := resolvedTranslations store uGloss native
      if uTrans.isEmpty && !hasLog uGloss (TRANSLATION_IMPOSSIBLE_MARKER ++ ":" ++ native) then
        { acc with
          ok := false,
          missingTranslations := acc.missingTranslations ++ [glossRef uGloss] }
      else acc) resA
  else res1

/-- Recursion of `standardPartsCheck` over resolved `parts` references: each
resolved part is checked (back-edges on the path contribute a trivially
satisfied result and are not expanded) and its aggregate is folded in. -/
def spcList (store : Store) (native target : String) :
    List String → List String → PartsCheckResult
  | [], _ => spcOk
  | ref :: rest, path =>
    match hres : resolveReference store ref with
    | none => spcList store native target rest path
    | some part =>
      let child :=
        if hp : glossRef part ∈ path then spcOk
        else
          spcCombine (spcBody store native target part false)
            (spcList store native target part.parts (glossRef part :: path))
      spcCombine child (spcList store native target rest path)
termination_by refs path => (partsRefsMeasure store refs path, refs.length)
decreasing_by
  · exact prodLexOfLe partsRefsMeasure_le (Nat.lt_succ_self _)
  · exact Prod.Lex.left _ _ (partsRefsMeasure_lt hres hp)
  · exact prodLexOfLe partsRefsMeasure_le (Nat.lt_succ_self _)

/-- `standardPartsCheck` of `goalLogic.ts`. -/
def standardPartsCheck (store : Store) (native target : String) (gloss : Gloss)
    (path : List String) (skipUsageForRoot : Bool) : PartsCheckResult :=
  if glossRef gloss ∈ path then spcOk
  else
    spcCombine (spcBody store native target gloss skipUsageForRoot)
      (spcList store native target gloss.parts (glossRef gloss :: path))

/-! Reduction equations for `spcList`, used to evaluate concrete stores. -/

theorem spcList_nil (store : Store) (n t : String) (path : List String) :
    spcList store n t [] path = spcOk := by
  simp [spcList]

theorem spcList_cons_none {store : Store} {ref : String} (n t : String)
    (rest path : List String) (h : resolveReference store ref = none) :
    spcList store n t (ref :: rest) path = spcList store n t rest path := by
  rw [spcList]
  split
  · rfl
  · rename_i part heq
    rw [h] at heq
    exact absurd heq (by simp)

theorem spcList_cons_mem {store : Store} {ref : String} {part : Gloss} (n t : String)
    (rest path : List String) (h : resolveReference store ref = some part)
    (hp : glossRef part ∈ path) :
    spcList store n t (ref :: rest) path = spcCombine spcOk (spcList store n t rest path) := by
  rw [spcList]
  split
  · rename_i heq
    rw [h] at heq
    exact absurd heq (by simp)
  · rename_i part2 heq
    rw [h] at heq
    have hpp : part2 = part := (Option.some.inj heq).symm
    subst hpp
    rw [dif_pos hp]

theorem spcList_cons_new {store : Store} {ref : String} {part : Gloss} (n t : String)
    (rest path : List String) (h : resolveReference store ref = some part)
    (hp : glossRef part ∉ path) :
    spcList store n t (ref :: rest) path =
      spcCombine
        (spcCombine (spcBody store n t part false)
          (spcList store n t part.parts (glossRef part :: path)))
        (spcList store n t rest path) := by
  rw [spcList]
  split
  · rename_i heq
    rw [h] at heq
    exact absurd heq (by simp)
  · rename_i part2 heq
    rw [h] at heq
    have hpp : part2 = part := (Option.some.inj heq).symm
    subst hpp
    rw [dif_neg hp]

/-! ### evaluateGoalState -/

/-- The `GoalState` union of `goalLogic.ts`: only `'red'` and `'yellow'`. -/
inductive GoalState where
  | red
  | yellow
deriving DecidableEq, Repr

/-- The string a `GoalState` value denotes in the source. -/
def GoalState.asString : GoalState → String
  | .red => "red"
  | .yellow => "yellow"

/-- One `check(desc, passed, missing)` call of `evaluateGoalState`: the lines
it pushes onto the rationale log. -/
def checkLines (desc : String) (passed : Bool) (missing : Option (List String)) : List String :=
  ("- [" ++ (if passed then "x" else " ") ++ "] " ++ desc) ::
    (if passed then []
     else
       match missing with
       | none => []
       | some ms => ms.map (fun item => "  missing: " ++ item))

structure EvalResult where
  state : GoalState
  log : String
deriving DecidableEq, Repr

/-- `evaluateGoalState` of `goalLogic.ts`: tri-branch on the detected goal
kind, computing the Yellow conditions and a line-oriented rationale log. -/
def evaluateGoalState (g : Gloss) (store : Store)
    (nativeLanguage targetLanguage : String) : EvalResult :=
  let native := normalizeLanguageCode nativeLanguage
  let target := normalizeLanguageCode targetLanguage
  let goalLang := normalizeLanguageCode g.language
  let tags := g.tags
  let goalKind := detectGoalType g native target
  let goalRef := glossRef g
  let kindStr :=
    match goalKind with
    | some GoalType.procedural => "procedural"
    | some GoalType.understanding => "understanding"
    | none => "unknown"
  let header : List String :=
    ["goal=" ++ goalRef, "kind=" ++ kindStr, "native=" ++ native, "target=" ++ target]
  let body : Bool × List String :=
    match goalKind with
    | some GoalType.understanding =>
      let cLang := goalLang == target
      let l1 := checkLines "goal expression is in target language" cLang (some [goalRef])
      let goalNativeTrans := resolvedTranslations store g native
      let cT1 := !goalNativeTrans.isEmpty ||
        hasLog g (TRANSLATION_IMPOSSIBLE_MARKER ++ ":" ++ native)
      let l2 := checkLines "goal has translation into native (or logged impossible)" cT1
        (if goalNativeTrans.length < 1 then some [goalRef] else none)
      let partsCheck := standardPartsCheck store native target g [] true
      let cParts := partsCheck.ok
      let l3 := checkLines
        "goal and its parts satisfy standard parts recursion (parts + translations + usage-on-target)"
        cParts
        (some (jsSetDedup (partsCheck.missingParts ++ partsCheck.missingTranslations ++
          partsCheck.missingUsage)))
      (cLang && cT1 && cParts, "requirements:" :: (l1 ++ l2 ++ l3))
    | some GoalType.procedural =>
      let cLang := goalLang == native
      let l1 := checkLines "goal expression is in native language" cLang (some [goalRef])
      let cTag := tags.contains "eng:paraphrase"
      let l2 := checkLines "goal tagged eng:paraphrase" cTag (some [goalRef])
      let goalTargetTransGlosses := resolvedTranslations store g target true
      let cT1 := !goalTargetTransGlosses.isEmpty ||
        hasLog g (TRANSLATION_IMPOSSIBLE_MARKER ++ ":" ++ target)
      let l3 := checkLines
        "goal has translation into target (non-paraphrase) or logged impossible" cT1
        (if goalTargetTransGlosses.length < 1 then some [goalRef] else none)
      let cPartsChecked := !g.parts.isEmpty || hasLog g SPLIT_LOG_MARKER
      let l4 := checkLines "goal checked for parts (has parts or logged unsplittable)"
        cPartsChecked (if cPartsChecked then none else some [goalRef])
      let branchResults := goalTargetTransGlosses.map
        (fun tGloss => standardPartsCheck store native target tGloss [] false)
      let translationBranchesOk := branchResults.all (fun b => b.ok)
      let missing0 := branchResults.flatMap
        (fun b => b.missingParts ++ b.missingTranslations ++ b.missingUsage)
      let rootBranch : Option PartsCheckResult :=
        if g.parts.isEmpty then none
        else some (standardPartsCheck store native target g [] false)
      let rootPartsOk :=
        match rootBranch with
        | none => true
        | some rb => rb.ok
      let missing :=
        match rootBranch with
        | none => missing0
        | some rb => missing0 ++ (rb.missingParts ++ rb.missingTranslations ++ rb.missingUsage)
      let branchesOk := translationBranchesOk && rootPartsOk
      let l5 := checkLines "translations and any root parts satisfy standard parts recursion"
        branchesOk (if branchesOk then none else some (jsSetDedup missing))
      (cLang && cTag && cT1 && cPartsChecked && branchesOk,
        "requirements:" :: (l1 ++ l2 ++ l3 ++ l4 ++ l5))
    | none =>
      (false, "requirements:" ::
        checkLines "goal matches expected kind for native/target languages" false (some [goalRef]))
  let state : GoalState := if body.1 then GoalState.yellow else GoalState.red
  { state := state,
    log := jsJoin "\n" (header ++ body.2 ++ ["state=" ++ state.asString]) }

/-- `determineGoalState`: the state component only. -/
def determineGoalState (g : Gloss) (store : Store)
    (nativeLanguage targetLanguage : String) : GoalState :=
  (evaluateGoalState g store nativeLanguage targetLanguage).state

/-! ### treeBuilder.ts -/

/-- `paraphraseDisplay`: `gloss.content || ''`. -/
def paraphraseDisplay (g : Gloss) : String := g.content

/-- `glossKey` of `treeBuilder.ts` (same formula as `glossRef`). -/
def glossKey (gl : Gloss) : String :=
  gl.language ++ ":" ++ (if gl.slug = "" then gl.content else gl.slug)

/-- `translationExists`: is there a translation reference into `lang`
(resolving it only when paraphrases must be excluded)? -/
def translationExists (store : Store) (gl : Gloss) (lang : String)
    (requireNonParaphrase : Bool := false) : Bool :=
  gl.translations.any (fun ref =>
    if normalizeLanguageCode ((jsSplit ':' ref).headD "") != lang then false
    else if !requireNonParaphrase then true
    else
      match resolveReference store ref with
      | none => false
      | some tGloss => !(tGloss.tags.contains "eng:paraphrase"))

/-- `TreeNode` of `treeBuilder.ts`.  `state` and `goal_type` are kept as the
strings the TypeScript union types denote (the exporter compares them as
strings, which is essential to some claims). -/
inductive TreeNode where
  | mk
    (gloss : Gloss) (display : String) (children : List TreeNode) (marker : String)
    (bold : Bool) (role : String)
    (warn_native_missing warn_target_missing warn_usage_missing warn_parts_missing : Bool)
    (state : String) (goal_type : Option String)
    (parentRef : Option String) (viaField : Option String)

def TreeNode.gloss : TreeNode → Gloss
  | .mk g _ _ _ _ _ _ _ _ _ _ _ _ _ => g

def TreeNode.children : TreeNode → List TreeNode
  | .mk _ _ c _ _ _ _ _ _ _ _ _ _ _ => c

def TreeNode.bold : TreeNode → Bool
  | .mk _ _ _ _ b _ _ _ _ _ _ _ _ _ => b

def TreeNode.role : TreeNode → String
  | .mk _ _ _ _ _ r _ _ _ _ _ _ _ _ => r

def TreeNode.warn_native_missing : TreeNode → Bool
  | .mk _ _ _ _ _ _ w _ _ _ _ _ _ _ => w

def TreeNode.warn_target_missing : TreeNode → Bool
  | .mk _ _ _ _ _ _ _ w _ _ _ _ _ _ => w

def TreeNode.warn_usage_missing : TreeNode → Bool
  | .mk _ _ _ _ _ _ _ _ w _ _ _ _ _ => w

def TreeNode.warn_parts_missing : TreeNode → Bool
  | .mk _ _ _ _ _ _ _ _ _ w _ _ _ _ => w

def TreeNode.state : TreeNode → String
  | .mk _ _ _ _ _ _ _ _ _ _ s _ _ _ => s

def TreeNode.goal_type : TreeNode → Option String
  | .mk _ _ _ _ _ _ _ _ _ _ _ t _ _ => t

/-- Per-goal missing sets of `TreeStats.goal_missing_by_root`. -/
structure GoalMissing where
  native_missing : List String := []
  target_missing : List String := []
  parts_missing : List String := []
  usage_missing : List String := []
deriving Repr

/-- `TreeStats` of `treeBuilder.ts`; JS `Set`s become insertion-ordered lists
without duplicates, `gloss_map` and `goal_missing_by_root` association lists. -/
structure TreeStats where
  situation_glosses : List String := []
  glosses_to_learn : List String := []
  native_missing : List String := []
  target_missing : List String := []
  parts_missing : List String := []
  usage_missing : List String := []
  gloss_map : List (String × Gloss) := []
  goal_missing_by_root : List (String × GoalMissing) := []
deriving Repr

/-- JS `Set.add`: append if absent. -/
def addSet (l : List String) (x : String) : List String :=
  if l.contains x then l else l ++ [x]

/-- JS object property assignment on an association list. -/
def mapInsertGloss (m : List (String × Gloss)) (k : String) (v : Gloss) :
    List (String × Gloss) :=
  if m.any (fun e => e.1 == k) then m.map (fun e => if e.1 == k then (k, v) else e)
  else m ++ [(k, v)]

inductive MissingKind where
  | native
  | target
  | parts
  | usage
deriving DecidableEq, Repr

def GoalMissing.add (gm : GoalMissing) (k : MissingKind) (key : String) : GoalMissing :=
  match k with
  | .native => { gm with native_missing := addSet gm.native_missing key }
  | .target => { gm with target_missing := addSet gm.target_missing key }
  | .parts => { gm with parts_missing := addSet gm.parts_missing key }
  | .usage => { gm with usage_missing := addSet gm.usage_missing key }

/-- `ensureGoalStats` followed by adding to a per-goal set. -/
def goalMissingAdd (m : List (String × GoalMissing)) (goalRef : String)
    (k : MissingKind) (key : String) : List (String × GoalMissing) :=
  if m.any (fun e => e.1 == goalRef) then
    m.map (fun e => if e.1 == goalRef then (e.1, e.2.add k key) else e)
  else m ++ [(goalRef, GoalMissing.add {} k key)]

/-- `recordMissing`: add to the global set and the per-goal set. -/
def recordMissing (stats : TreeStats) (k : MissingKind) (key goalRef : String) : TreeStats :=
  let s1 :=
    match k with
    | .native => { stats with native_missing := addSet stats.native_missing key }
    | .target => { stats with target_missing := addSet stats.target_missing key }
    | .parts => { stats with parts_missing := addSet stats.parts_missing key }
    | .usage => { stats with usage_missing := addSet stats.usage_missing key }
  { s1 with goal_missing_by_root := goalMissingAdd s1.goal_missing_by_root goalRef k key }

structure WarnOptions where
  checkTranslationTo : Option String := none
  requireNonParaphrase : Bool := false
  checkParts : Bool := false
  checkUsage : Bool := false

structure Warnings where
  warn_native_missing : Bool
  warn_target_missing : Bool
  warn_usage_missing : Bool
  warn_parts_missing : Bool

/-- `computeWarnings`: record the gloss, record any missing data implied by
the options, and read the warning flags back from the (updated) stats.
An empty `checkTranslationTo` string is falsy in JS and skips the check. -/
def computeWarnings (store : Store) (native target : String) (stats : TreeStats)
    (gl : Gloss) (goalRootRef : String) (options : WarnOptions) : Warnings × TreeStats :=
  let key := glossKey gl
  let s1 := { stats with
    gloss_map := mapInsertGloss stats.gloss_map key gl,
    situation_glosses := addSet stats.situation_glosses key }
  let s2 :=
    if options.checkParts && gl.parts.isEmpty && !hasLog gl SPLIT_LOG_MARKER then
      recordMissing s1 MissingKind.parts key goalRootRef
    else s1
  let s3 :=
    match options.checkTranslationTo with
    | none => s2
    | some checkTo =>
      if checkTo = "" then s2
      else
        let desiredLang := normalizeLanguageCode checkTo
        let missingTranslation :=
          !translationExists store gl desiredLang options.requireNonParaphrase &&
            !hasLog gl (TRANSLATION_IMPOSSIBLE_MARKER ++ ":" ++ desiredLang)
        if missingTranslation then
          if desiredLang == native then recordMissing s2 MissingKind.native key goalRootRef
          else if desiredLang == target then recordMissing s2 MissingKind.target key goalRootRef
          else s2
        else s2
  let s4 :=
    if options.checkUsage && normalizeLanguageCode gl.language == target &&
        gl.usage_examples.isEmpty &&
        !hasLog gl (USAGE_IMPOSSIBLE_MARKER ++ ":" ++ target) then
      recordMissing s3 MissingKind.usage key goalRootRef
    else s3
  (⟨s4.native_missing.contains key, s4.target_missing.contains key,
    s4.usage_missing.contains key, s4.parts_missing.contains key⟩, s4)

/-- `addLearnable`. -/
def addLearnable (stats : TreeStats) (gl : Gloss) (learnLang : String)
    (partsLine : Bool) : TreeStats :=
  if partsLine && normalizeLanguageCode gl.language == normalizeLanguageCode learnLang then
    { stats with glosses_to_learn := addSet stats.glosses_to_learn (glossKey gl) }
  else stats

/-- `buildTranslationNodes`: leaf nodes for the translations of `gl` into
`otherLang` (the `path` parameter is unused in the source as well). -/
def buildTranslationNodes (store : Store) (native target : String) (gl : Gloss)
    (otherLang : String) (path : List String) (goalRootRef parentRef : String)
    (viaField : String) (requireNonParaphrase : Bool) (stats : TreeStats) :
    List TreeNode × TreeStats :=
  let _ := path
  gl.translations.foldl (fun (acc : List TreeNode × TreeStats) ref =>
    if normalizeLanguageCode ((jsSplit ':' ref).headD "") != otherLang then acc
    else
      match resolveReference store ref with
      | none => acc
      | some tGloss =>
        if requireNonParaphrase && tGloss.tags.contains "eng:paraphrase" then acc
        else
          let ws := computeWarnings store native target acc.2 tGloss goalRootRef {}
          (acc.1 ++ [TreeNode.mk tGloss (paraphraseDisplay tGloss) [] "" false "translation"
            ws.1.warn_native_missing ws.1.warn_target_missing ws.1.warn_usage_missing
            ws.1.warn_parts_missing "" none (some parentRef) (some viaField)], ws.2))
    ([], stats)

/-- `buildUsageNode`: a usage-example node with its back-translation leaves
(no children when the gloss is already on the path). -/
def buildUsageNode (store : Store) (native target : String) (uGloss : Gloss)
    (path : List String) (goalRootRef parentRef : String) (viaField : String)
    (stats : TreeStats) : TreeNode × TreeStats :=
  let counterpart : Option String :=
    if normalizeLanguageCode uGloss.language == target then some native
    else if normalizeLanguageCode uGloss.language == native then some target
    else none
  let ws := computeWarnings store native target stats uGloss goalRootRef
    { checkTranslationTo := counterpart,
      requireNonParaphrase := normalizeLanguageCode uGloss.language == native }
  let childrenAndStats :=
    if (glossKey uGloss) ∈ path then ([], ws.2)
    else
      match counterpart with
      | none => ([], ws.2)
      | some cp =>
        buildTranslationNodes store native target uGloss cp (glossKey uGloss :: path)
          goalRootRef (glossKey uGloss) "translations"
          (normalizeLanguageCode uGloss.language == native) ws.2
  (TreeNode.mk uGloss (paraphraseDisplay uGloss) childrenAndStats.1 "USG " false "usage"
    ws.1.warn_native_missing ws.1.warn_target_missing ws.1.warn_usage_missing
    ws.1.warn_parts_missing "" none (some parentRef) (some viaField), childrenAndStats.2)

set_option maxHeartbeats 1000000 in
/-- The recursion of `buildPartsNodes` over a list of `parts` references:
for each resolved part, compute warnings, then (unless the part is already
on the visited path, in which case it is attached with no children) build
its translation leaves, usage nodes and recursively its own parts. -/
def bpl (store : Store) (native target goalRootRef learnLang : String)
    (partsLine skipUsage : Bool) (parentKey : String) :
    List String → List String → TreeStats → List TreeNode × TreeStats
  | [], _, stats => ([], stats)
  | partRef :: rest, path, stats =>
    match hres : resolveReference store partRef with
    | none => bpl store native target goalRootRef learnLang partsLine skipUsage parentKey
        rest path stats
    | some partGloss =>
      let lang := normalizeLanguageCode partGloss.language
      let counterpart : Option String :=
        if lang == target then some native
        else if lang == native then some target
        else none
      let ws := computeWarnings store native target stats partGloss goalRootRef
        { checkTranslationTo := counterpart,
          requireNonParaphrase := lang == native,
          checkParts := true,
          checkUsage := !skipUsage && lang == target }
      let partKey := glossKey partGloss
      let boldFlag := partsLine && lang == normalizeLanguageCode learnLang
      let s2 := addLearnable ws.2 partGloss learnLang partsLine
      if hkey : partKey ∈ path then
        let tailRes := bpl store native target goalRootRef learnLang partsLine skipUsage
          parentKey rest path s2
        (TreeNode.mk partGloss (paraphraseDisplay partGloss) [] "" boldFlag "part"
          ws.1.warn_native_missing ws.1.warn_target_missing ws.1.warn_usage_missing
          ws.1.warn_parts_missing "" none (some parentKey) (some "parts") :: tailRes.1,
          tailRes.2)
      else
        let nextPath := partKey :: path
        let tRes :=
          match counterpart with
          | none => ([], s2)
          | some cp =>
            buildTranslationNodes store native target partGloss cp nextPath goalRootRef
              partKey "translations" (lang == native) s2
        let uRes :=
          if !skipUsage && lang == target then
            partGloss.usage_examples.foldl (fun (acc : List TreeNode × TreeStats) uRef =>
              match resolveReference store uRef with
              | none => acc
              | some uGloss =>
                let un := buildUsageNode store native target uGloss nextPath goalRootRef
                  partKey "usage_examples" acc.2
                (acc.1 ++ [un.1], un.2)) ([], tRes.2)
          else ([], tRes.2)
        let pRes := bpl store native target goalRootRef learnLang partsLine false partKey
          partGloss.parts nextPath uRes.2
        let tailRes := bpl store native target goalRootRef learnLang partsLine skipUsage
          parentKey rest path pRes.2
        (TreeNode.mk partGloss (paraphraseDisplay partGloss) (tRes.1 ++ uRes.1 ++ pRes.1) ""
          boldFlag "part" ws.1.warn_native_missing ws.1.warn_target_missing
          ws.1.warn_usage_missing ws.1.warn_parts_missing "" none (some parentKey)
          (some "parts") :: tailRes.1, tailRes.2)
termination_by refs path _ => (partsRefsMeasure store refs path, refs.length)
decreasing_by
  · exact prodLexOfLe partsRefsMeasure_le (Nat.lt_succ_self _)
  · exact prodLexOfLe partsRefsMeasure_le (Nat.lt_succ_self _)
  · refine Prod.Lex.left _ _ ?_
    have hkey2 : glossRef partGloss ∉ path := hkey
    exact partsRefsMeasure_lt hres hkey2
  · exact prodLexOfLe partsRefsMeasure_le (Nat.lt_succ_self _)

/-- `buildPartsNodes` of `treeBuilder.ts`. -/
def buildPartsNodes (store : Store) (native target : String) (gl : Gloss)
    (path : List String) (goalRootRef learnLang : String) (partsLine skipUsage : Bool)
    (stats : TreeStats) : List TreeNode × TreeStats :=
  bpl store native target goalRootRef learnLang partsLine skipUsage (glossKey gl)
    gl.parts path stats

/-- `buildGoalNodes` of `treeBuilder.ts`: walk the situation's children,
classify them, and build the root nodes with their subtrees and stats. -/
def buildGoalNodes (situation : Gloss) (store : Store)
    (nativeLanguage targetLanguage : String) : List TreeNode × TreeStats :=
  let native := normalizeLanguageCode nativeLanguage
  let target := normalizeLanguageCode targetLanguage
  situation.children.foldl (fun (acc : List TreeNode × TreeStats) ref =>
    match resolveReference store ref with
    | none => acc
    | some gloss =>
      match detectGoalType gloss native target with
      | none => acc
      | some goalKind =>
        let marker :=
          match goalKind with
          | GoalType.procedural => "PROC "
          | GoalType.understanding => "UNDR "
        let learnLang :=
          match goalKind with
          | GoalType.procedural => native
          | GoalType.understanding => target
        let goalTypeStr :=
          match goalKind with
          | GoalType.procedural => "procedural"
          | GoalType.understanding => "understanding"
        let rootKey := glossKey gloss
        let goalRootRef :=
          gloss.language ++ ":" ++ (if gloss.slug = "" then gloss.content else gloss.slug)
        let ws := computeWarnings store native target acc.2 gloss goalRootRef
          { checkTranslationTo :=
              some (match goalKind with
                | GoalType.understanding => native
                | GoalType.procedural => target),
            requireNonParaphrase := goalKind == GoalType.procedural,
            checkParts := true,
            checkUsage := false }
        let s2 := addLearnable ws.2 gloss learnLang true
        let basePath : List String := [rootKey]
        let childrenRes : List TreeNode × TreeStats :=
          match goalKind with
          | GoalType.understanding =>
            let tRes := buildTranslationNodes store native target gloss native basePath
              goalRootRef rootKey "translations" false s2
            let pRes := buildPartsNodes store native target gloss basePath goalRootRef
              learnLang true false tRes.2
            (tRes.1 ++ pRes.1, pRes.2)
          | GoalType.procedural =>
            let tRes := gloss.translations.foldl
              (fun (acc2 : List TreeNode × TreeStats) tRef =>
                if normalizeLanguageCode ((jsSplit ':' tRef).headD "") != target then acc2
                else
                  match resolveReference store tRef with
                  | none => acc2
                  | some tGloss =>
                    if tGloss.tags.contains "eng:paraphrase" then acc2
                    else
                      let tws := computeWarnings store native target acc2.2 tGloss goalRootRef
                        { checkTranslationTo := some native,
                          checkParts := true,
                          checkUsage := true }
                      let tKey := glossKey tGloss
                      let branchPath : List String := [rootKey, tKey]
                      let btRes := buildTranslationNodes store native target tGloss native
                        branchPath goalRootRef tKey "translations" false tws.2
                      let uRes :=
                        if normalizeLanguageCode tGloss.language == target then
                          tGloss.usage_examples.foldl
                            (fun (acc3 : List TreeNode × TreeStats) uRef =>
                              match resolveReference store uRef with
                              | none => acc3
                              | some uGloss =>
                                let un := buildUsageNode store native target uGloss branchPath
                                  goalRootRef tKey "usage_examples" acc3.2
                                (acc3.1 ++ [un.1], un.2)) ([], btRes.2)
                        else ([], btRes.2)
                      let pRes := buildPartsNodes store native target tGloss branchPath
                        goalRootRef learnLang true false uRes.2
                      (acc2.1 ++ [TreeNode.mk tGloss (paraphraseDisplay tGloss)
                        (btRes.1 ++ uRes.1 ++ pRes.1) "" false "translation"
                        tws.1.warn_native_missing tws.1.warn_target_missing
                        tws.1.warn_usage_missing tws.1.warn_parts_missing "" none
                        (some rootKey) (some "translations")], pRes.2))
              ([], s2)
            let pRes :=
              if gloss.parts.isEmpty then ([], tRes.2)
              else buildPartsNodes store native target gloss basePath goalRootRef learnLang
                true false tRes.2
            (tRes.1 ++ pRes.1, pRes.2)
        let stateStr := (determineGoalState gloss store native target).asString
        (acc.1 ++ [TreeNode.mk gloss (paraphraseDisplay gloss) childrenRes.1 marker true "root"
          ws.1.warn_native_missing ws.1.warn_target_missing ws.1.warn_usage_missing
          ws.1.warn_parts_missing stateStr (some goalTypeStr)
          (some (situation.language ++ ":" ++
            (if situation.slug = "" then situation.content else situation.slug)))
          (some "children")], childrenRes.2))
    ([], {})

/-! ### Batch exporter (`performBatchExport` goal loop of `situationHandlers`) -/

/-- `nodeRef` of the exporter (same formula as `glossKey`). -/
def nodeRef (gl : Gloss) : String :=
  gl.language ++ ":" ++ (if gl.slug = "" then gl.content else gl.slug)

structure GatherAcc where
  refs : List String := []
  learn : List String := []
  seen : List String := []
deriving Repr

mutual

/-- `gatherRefs.walk`: collect references (deduplicated) and bold learnables,
skipping part/usage-part subtrees for procedural goals. -/
def walkGather (skipParts : Bool) (rootRef : String) : TreeNode → GatherAcc → GatherAcc
  | TreeNode.mk gloss _ children _ bold role _ _ _ _ _ _ _ _, acc =>
    if skipParts && (role == "part" || role == "usage_part") then acc
    else
      let ref := nodeRef gloss
      let acc1 :=
        if acc.seen.contains ref then acc
        else { acc with seen := acc.seen ++ [ref], refs := acc.refs ++ [ref] }
      let acc2 :=
        if bold && ref != rootRef && !acc1.learn.contains ref then
          { acc1 with learn := acc1.learn ++ [ref] }
        else acc1
      walkGatherList skipParts rootRef children acc2

/-- Walk a list of children in order. -/
def walkGatherList (skipParts : Bool) (rootRef : String) :
    List TreeNode → GatherAcc → GatherAcc
  | [], acc => acc
  | c :: cs, acc => walkGatherList skipParts rootRef cs (walkGather skipParts rootRef c acc)
end

/-- `gatherRefs` of the exporter. -/
def gatherRefs (root : TreeNode) : List String × List String :=
  let skipParts := root.goal_type == some "procedural"
  let a := walkGather skipParts (nodeRef root.gloss) root {}
  (a.refs, a.learn)

structure GoalPayload where
  finalChallenge : String
  needToBeLearned : List String
  references : List String
deriving DecidableEq, Repr

/-- Accumulator of the exporter's goal loop: the two payload lists of the
export object and the `allRefs` set. -/
structure ExportAcc where
  procedural : List GoalPayload := []
  understand : List GoalPayload := []
  allRefs : List String := []
deriving DecidableEq, Repr

/-- One iteration of `for (const root of nodes)` in `performBatchExport`:
roots below yellow are skipped, as are roots whose `goal_type` is neither
`'procedural'` nor `'understand'`. -/
def exportGoalStep (acc : ExportAcc) (root : TreeNode) : ExportAcc :=
  let state := jsToLower root.state
  if state != "yellow" && state != "green" then acc
  else if root.goal_type != some "procedural" && root.goal_type != some "understand" then acc
  else
    let rl := gatherRefs root
    let allRefs := rl.1.foldl addSet acc.allRefs
    let payload : GoalPayload := ⟨nodeRef root.gloss, rl.2, rl.1⟩
    if root.goal_type == some "procedural" then
      { acc with procedural := acc.procedural ++ [payload], allRefs := allRefs }
    else
      { acc with understand := acc.understand ++ [payload], allRefs := allRefs }

/-- The goal loop of `performBatchExport` over the roots returned by
`buildGoalNodes`, starting from the situation's own references. -/
def performBatchExportGoals (nodes : List TreeNode) (initialRefs : List String) : ExportAcc :=
  nodes.foldl exportGoalStep { allRefs := initialRefs }

/-! ### Relation storage (`fsGlossStorage.ts`) -/

/-- The relationship fields of a gloss. -/
inductive RelationshipField where
  | translations
  | parts
  | usage_examples
  | children
  | notes
  | morphologically_related
  | has_similar_meaning
  | sounds_similar
  | to_be_differentiated_from
  | collocations
  | typical_follow_up
deriving DecidableEq, Repr

/-- Modelled from the spec: the module `relationRules.ts` that declares these
constants is not part of the sources; the spec's data-model invariant fixes
the symmetric relations as `translations`, `morphologically_related`,
`has_similar_meaning`, `sounds_similar`, `to_be_differentiated_from` and the
rest as directional.  `RELATIONSHIP_FIELDS` lists every relationship field. -/
def RELATIONSHIP_FIELDS : List RelationshipField :=
  [RelationshipField.translations, RelationshipField.parts,
    RelationshipField.usage_examples, RelationshipField.children,
    RelationshipField.notes, RelationshipField.morphologically_related,
    RelationshipField.has_similar_meaning, RelationshipField.sounds_similar,
    RelationshipField.to_be_differentiated_from, RelationshipField.collocations,
    RelationshipField.typical_follow_up]

/-- Modelled from the spec: the symmetric relations of the data-model
invariant. -/
def SYMMETRICAL_RELATIONS : List RelationshipField :=
  [RelationshipField.translations, RelationshipField.morphologically_related,
    RelationshipField.has_similar_meaning, RelationshipField.sounds_similar,
    RelationshipField.to_be_differentiated_from]

/-- Modelled from the spec: the within-language relations (`translations`
links across languages by definition, so it is not among them; only this
absence matters to the claims below). -/
def WITHIN_LANGUAGE_RELATIONS : List RelationshipField :=
  [RelationshipField.morphologically_related, RelationshipField.has_similar_meaning,
    RelationshipField.sounds_similar, RelationshipField.to_be_differentiated_from]

/-- Read a relationship field of a gloss. -/
def Gloss.getRel (g : Gloss) : RelationshipField → List String
  | RelationshipField.translations => g.translations
  | RelationshipField.parts => g.parts
  | RelationshipField.usage_examples => g.usage_examples
  | RelationshipField.children => g.children
  | RelationshipField.notes => g.notes
  | RelationshipField.morphologically_related => g.morphologically_related
  | RelationshipField.has_similar_meaning => g.has_similar_meaning
  | RelationshipField.sounds_similar => g.sounds_similar
  | RelationshipField.to_be_differentiated_from => g.to_be_differentiated_from
  | RelationshipField.collocations => g.collocations
  | RelationshipField.typical_follow_up => g.typical_follow_up

/-- Write a relationship field of a gloss. -/
def Gloss.setRel (g : Gloss) (f : RelationshipField) (v : List String) : Gloss :=
  match f with
  | RelationshipField.translations => { g with translations := v }
  | RelationshipField.parts => { g with parts := v }
  | RelationshipField.usage_examples => { g with usage_examples := v }
  | RelationshipField.children => { g with children := v }
  | RelationshipField.notes => { g with notes := v }
  | RelationshipField.morphologically_related => { g with morphologically_related := v }
  | RelationshipField.has_similar_meaning => { g with has_similar_meaning := v }
  | RelationshipField.sounds_similar => { g with sounds_similar := v }
  | RelationshipField.to_be_differentiated_from => { g with to_be_differentiated_from := v }
  | RelationshipField.collocations => { g with collocations := v }
  | RelationshipField.typical_follow_up => { g with typical_follow_up := v }

/-- Write a gloss file: replace the entry at the key or create it. -/
def storeInsert (store : Store) (key : String × String) (g : Gloss) : Store :=
  if store.any (fun e => e.1 == key) then
    store.map (fun e => if e.1 == key then (key, g) else e)
  else store ++ [(key, g)]

/-- `GlossStorage.saveGloss`: reject glosses without language or slug, else
write the file at `pathFor`. -/
def saveGloss (store : Store) (g : Gloss) : Except String Store :=
  if g.slug = "" || g.language = "" then
    Except.error "Gloss must have language and slug before saving."
  else Except.ok (storeInsert store (pathFor g.language g.slug) g)

/-- `GlossStorage.attachRelation`: add the forward reference (saving the
base when it changed) and, for symmetric fields, the back reference on the
target.  Returns the updated store and the updated gloss values. -/
def attachRelation (store : Store) (base : Gloss) (field : RelationshipField)
    (target : Gloss) : Except String (Store × Gloss × Gloss) := do
  if !(RELATIONSHIP_FIELDS.contains field) then
    Except.error "Unknown relation field"
  else if WITHIN_LANGUAGE_RELATIONS.contains field && target.language != base.language then
    Except.error "This relationship must stay within the same language."
  else
    let ref := target.language ++ ":" ++ target.slug
    let existing := base.getRel field
    let fwd ←
      if !(existing.contains ref) then do
        let b := base.setRel field (existing ++ [ref])
        let s ← saveGloss store b
        pure (s, b)
      else pure (store, base)
    if SYMMETRICAL_RELATIONS.contains field then
      let backRef := base.language ++ ":" ++ base.slug
      let targetRelations := target.getRel field
      if !(targetRelations.contains backRef) then do
        let t := target.setRel field (targetRelations ++ [backRef])
        let s ← saveGloss fwd.1 t
        pure (s, fwd.2, t)
      else pure (fwd.1, fwd.2, target)
    else pure (fwd.1, fwd.2, target)

/-- `GlossStorage.detachRelation`: filter the reference out of the base (and
save), then for symmetric fields resolve the target from the store and filter
the back reference out of it (and save). -/
def detachRelation (store : Store) (base : Gloss) (field : RelationshipField)
    (targetRef : String) : Except String (Store × Gloss) := do
  let b := base.setRel field ((base.getRel field).filter (fun r => r != targetRef))
  let s1 ← saveGloss store b
  if SYMMETRICAL_RELATIONS.contains field then
    match resolveReference s1 targetRef with
    | none => pure (s1, b)
    | some target =>
      let backRef := base.language ++ ":" ++ base.slug
      let t := target.setRel field ((target.getRel field).filter (fun r => r != backRef))
      let s2 ← saveGloss s1 t
      pure (s2, b)
  else pure (s1, b)

/-! ### Tree traversal helper used by the statements -/

mutual

/-- Every node of a tree (the node itself and, recursively, its children). -/
def subnodes : TreeNode → List TreeNode
  | TreeNode.mk g d cs m b r w1 w2 w3 w4 s t p v =>
    TreeNode.mk g d cs m b r w1 w2 w3 w4 s t p v :: subnodesList cs

/-- Every node of a forest. -/
def subnodesList : List TreeNode → List TreeNode
  | [] => []
  | c :: cs => subnodes c ++ subnodesList cs

end

/-! Reduction equations for `bpl`, used to evaluate concrete stores. -/

theorem bpl_nil (store : Store) (native target goalRootRef learnLang : String)
    (partsLine skipUsage : Bool) (parentKey : String) (path : List String)
    (stats : TreeStats) :
    bpl store native target goalRootRef learnLang partsLine skipUsage parentKey
      [] path stats = ([], stats) := by
  simp [bpl]

theorem bpl_cons_none {store : Store} {partRef : String}
    (native target goalRootRef learnLang : String) (partsLine skipUsage : Bool)
    (parentKey : String) (rest path : List String) (stats : TreeStats)
    (h : resolveReference store partRef = none) :
    bpl store native target goalRootRef learnLang partsLine skipUsage parentKey
      (partRef :: rest) path stats =
      bpl store native target goalRootRef learnLang partsLine skipUsage parentKey
        rest path stats := by
  rw [bpl]
  split
  · rfl
  · rename_i part heq
    rw [h] at heq
    exact absurd heq (by simp)

theorem bpl_cons_mem {store : Store} {partRef : String} {partGloss : Gloss}
    (native target goalRootRef learnLang : String) (partsLine skipUsage : Bool)
    (parentKey : String) (rest path : List String) (stats : TreeStats)
    (h : resolveReference store partRef = some partGloss)
    (hp : glossKey partGloss ∈ path) :
    bpl store native target goalRootRef learnLang partsLine skipUsage parentKey
      (partRef :: rest) path stats =
      (let lang := normalizeLanguageCode partGloss.language
      let counterpart : Option String :=
        if lang == target then some native
        else if lang == native then some target
        else none
      let ws := computeWarnings store native target stats partGloss goalRootRef
        { checkTranslationTo := counterpart,
          requireNonParaphrase := lang == native,
          checkParts := true,
          checkUsage := !skipUsage && lang == target }
      let s2 := addLearnable ws.2 partGloss learnLang partsLine
      let tailRes := bpl store native target goalRootRef learnLang partsLine skipUsage
        parentKey rest path s2
      (TreeNode.mk partGloss (paraphraseDisplay partGloss) [] ""
        (partsLine && lang == normalizeLanguageCode learnLang) "part"
        ws.1.warn_native_missing ws.1.warn_target_missing ws.1.warn_usage_missing
        ws.1.warn_parts_missing "" none (some parentKey) (some "parts") :: tailRes.1,
        tailRes.2)) := by
  rw [bpl]
  split
  · rename_i heq
    rw [h] at heq
    exact absurd heq (by simp)
  · rename_i part2 heq
    rw [h] at heq
    have hpp : part2 = partGloss := (Option.some.inj heq).symm
    subst hpp
    rw [dif_pos hp]

theorem bpl_cons_new {store : Store} {partRef : String} {partGloss : Gloss}
    (native target goalRootRef learnLang : String) (partsLine skipUsage : Bool)
    (parentKey : String) (rest path : List String) (stats : TreeStats)
    (h : resolveReference store partRef = some partGloss)
    (hp : glossKey partGloss ∉ path) :
    bpl store native target goalRootRef learnLang partsLine skipUsage parentKey
      (partRef :: rest) path stats =
      (let lang := normalizeLanguageCode partGloss.language
      let counterpart : Option String :=
        if lang == target then some native
        else if lang == native then some target
        else none
      let ws := computeWarnings store native target stats partGloss goalRootRef
        { checkTranslationTo := counterpart,
          requireNonParaphrase := lang == native,
          checkParts := true,
          checkUsage := !skipUsage && lang == target }
      let partKey := glossKey partGloss
      let s2 := addLearnable ws.2 partGloss learnLang partsLine
      let nextPath := partKey :: path
      let tRes :=
        match counterpart with
        | none => ([], s2)
        | some cp =>
          buildTranslationNodes store native target partGloss cp nextPath goalRootRef
            partKey "translations" (lang == native) s2
      let uRes :=
        if !skipUsage && lang == target then
          partGloss.usage_examples.foldl (fun (acc : List TreeNode × TreeStats) uRef =>
            match resolveReference store uRef with
            | none => acc
            | some uGloss =>
              let un := buildUsageNode store native target uGloss nextPath goalRootRef
                partKey "usage_examples" acc.2
              (acc.1 ++ [un.1], un.2)) ([], tRes.2)
        else ([], tRes.2)
      let pRes := bpl store native target goalRootRef learnLang partsLine false partKey
        partGloss.parts nextPath uRes.2
      let tailRes := bpl store native target goalRootRef learnLang partsLine skipUsage
        parentKey rest path pRes.2
      (TreeNode.mk partGloss (paraphraseDisplay partGloss) (tRes.1 ++ uRes.1 ++ pRes.1) ""
        (partsLine && lang == normalizeLanguageCode learnLang) "part"
        ws.1.warn_native_missing ws.1.warn_target_missing ws.1.warn_usage_missing
        ws.1.warn_parts_missing "" none (some parentKey) (some "parts") :: tailRes.1,
        tailRes.2)) := by
  rw [bpl]
  split
  · rename_i heq
    rw [h] at heq
    exact absurd heq (by simp)
  · rename_i part2 heq
    rw [h] at heq
    have hpp : part2 = partGloss := (Option.some.inj heq).symm
    subst hpp
    rw [dif_neg hp]

/-! ### Concrete fixtures used by the counterexamples and witnesses -/

/-- C3 fixture: understanding goal in the target language with one native
translation and one part; the part has one native translation and nothing
else. -/
def c3goal : Gloss :=
  { content := "goal1",
    language := "spa",
    slug := "goal1",
    tags := ["eng:understand-expression-goal"],
    translations := ["eng:t1"],
    parts := ["spa:p1"] }

def c3t1 : Gloss := { content := "t1", language := "eng", slug := "t1" }

def c3p1 : Gloss :=
  { content := "p1", language := "spa", slug := "p1", translations := ["eng:pt1"] }

def c3pt1 : Gloss := { content := "pt1", language := "eng", slug := "pt1" }

def c3store : Store :=
  [(("spa", "goal1"), c3goal), (("eng", "t1"), c3t1),
    (("spa", "p1"), c3p1), (("eng", "pt1"), c3pt1)]

/-- C3 fixture, amended: the part additionally carries the split-unnecessary
and usage-impossible markers. -/
def c3p1m : Gloss :=
  { c3p1 with logs := ["m1 SPLIT_CONSIDERED_UNNECESSARY", "m2 USAGE_EXAMPLE_CONSIDERED_IMPOSSIBLE:spa"] }

def c3storem : Store :=
  [(("spa", "goal1"), c3goal), (("eng", "t1"), c3t1),
    (("spa", "p1"), c3p1m), (("eng", "pt1"), c3pt1)]

/-- C3 fixture: the same goal with the part absent entirely. -/
def c3goal0 : Gloss := { c3goal with parts := [] }

def c3store0 : Store := [(("spa", "goal1"), c3goal0), (("eng", "t1"), c3t1)]

/-- C1 fixture: an understanding goal satisfying the Yellow conditions and
the claimed Green conditions (two native translations; its one part has two
usage examples, each translated into native). -/
def c1p1 : Gloss :=
  { content := "p1",
    language := "spa",
    slug := "p1",
    translations := ["eng:pt1"],
    usage_examples := ["spa:u1", "spa:u2"],
    logs := ["m SPLIT_CONSIDERED_UNNECESSARY"] }

def c1u1 : Gloss :=
  { content := "u1", language := "spa", slug := "u1", translations := ["eng:ut1"] }

def c1u2 : Gloss :=
  { content := "u2", language := "spa", slug := "u2", translations := ["eng:ut2"] }

def c1goal : Gloss :=
  { content := "goal1",
    language := "spa",
    slug := "goal1",
    tags := ["eng:understand-expression-goal"],
    translations := ["eng:t1", "eng:t2"],
    parts := ["spa:p1"] }

def c1store : Store :=
  [(("spa", "goal1"), c1goal),
    (("eng", "t1"), { content := "t1", language := "eng", slug := "t1" }),
    (("eng", "t2"), { content := "t2", language := "eng", slug := "t2" }),
    (("spa", "p1"), c1p1),
    (("eng", "pt1"), { content := "pt1", language := "eng", slug := "pt1" }),
    (("spa", "u1"), c1u1),
    (("spa", "u2"), c1u2),
    (("eng", "ut1"), { content := "ut1", language := "eng", slug := "ut1" }),
    (("eng", "ut2"), { content := "ut2", language := "eng", slug := "ut2" })]

/-- C2 fixture: a procedural goal with one qualifying target translation that
satisfies the Standard Parts Recursion on its own, while the goal itself has
no parts and no split marker. -/
def c2goal : Gloss :=
  { content := "ask for the bill",
    language := "eng",
    slug := "ask-for-the-bill",
    tags := ["eng:procedural-paraphrase-expression-goal", "eng:paraphrase"],
    translations := ["spa:tr"] }

def c2tr : Gloss :=
  { content := "tr",
    language := "spa",
    slug := "tr",
    translations := ["eng:trb"],
    logs := ["m1 SPLIT_CONSIDERED_UNNECESSARY", "m2 USAGE_EXAMPLE_CONSIDERED_IMPOSSIBLE:spa"] }

def c2trb : Gloss := { content := "trb", language := "eng", slug := "trb" }

def c2store : Store :=
  [(("eng", "ask-for-the-bill"), c2goal), (("spa", "tr"), c2tr), (("eng", "trb"), c2trb)]

/-- C2 fixture for the amended claim: the same goal carrying the
split-unnecessary marker. -/
def c2goalm : Gloss := { c2goal with logs := ["m SPLIT_CONSIDERED_UNNECESSARY"] }

def c2storem : Store :=
  [(("eng", "ask-for-the-bill"), c2goalm), (("spa", "tr"), c2tr), (("eng", "trb"), c2trb)]

/-- C6 fixture: a gloss carrying both goal tags, evaluated with
native = target. -/
def c6g : Gloss :=
  { content := "both",
    language := "eng",
    slug := "both",
    tags := ["eng:procedural-paraphrase-expression-goal", "eng:understand-expression-goal"] }

/-- C4 fixture: a parts cycle (`aa.parts = [bb]`, `bb.parts = [aa]`). -/
def c4a : Gloss := { content := "aa", language := "spa", slug := "aa", parts := ["spa:bb"] }

def c4b : Gloss := { content := "bb", language := "spa", slug := "bb", parts := ["spa:aa"] }

def c4store : Store := [(("spa", "aa"), c4a), (("spa", "bb"), c4b)]

/-- Containment of the four global missing sets: the walk only ever adds to
them, so the stats grow monotonically along the traversal. -/
def statsLe (s t : TreeStats) : Prop :=
  (∀ k, k ∈ s.native_missing → k ∈ t.native_missing) ∧
  (∀ k, k ∈ s.target_missing → k ∈ t.target_missing) ∧
  (∀ k, k ∈ s.parts_missing → k ∈ t.parts_missing) ∧
  (∀ k, k ∈ s.usage_missing → k ∈ t.usage_missing)

/-- A node's warning flags only claim keys that are recorded in the stats
`t`: each raised flag points at an entry of the corresponding missing set. -/
def nodeWarnSound (t : TreeStats) (n : TreeNode) : Prop :=
  (n.warn_native_missing = true → glossKey n.gloss ∈ t.native_missing) ∧
  (n.warn_target_missing = true → glossKey n.gloss ∈ t.target_missing) ∧
  (n.warn_usage_missing = true → glossKey n.gloss ∈ t.usage_missing) ∧
  (n.warn_parts_missing = true → glossKey n.gloss ∈ t.parts_missing)

/-- C9 fixture: gloss `x9` is both a translation of the understanding goal
`g9` into native and a part of `g9`. -/
def c9x : Gloss := { content := "x9", language := "eng", slug := "x9" }

def c9g : Gloss :=
  { content := "g9",
    language := "spa",
    slug := "g9",
    tags := ["eng:understand-expression-goal"],
    translations := ["eng:x9"],
    parts := ["eng:x9"] }

def c9sit : Gloss :=
  { content := "sit", language := "eng", slug := "sit",
    tags := ["eng:situation"], children := ["spa:g9"] }

def c9store : Store :=
  [(("eng", "sit"), c9sit), (("spa", "g9"), c9g), (("eng", "x9"), c9x)]

/-- C9 witness fixture: a bare understanding goal with no translations and no
parts, whose root node raises the native-missing and parts-missing flags. -/
def c9wgoal : Gloss :=
  { content := "w", language := "spa", slug := "w",
    tags := ["eng:understand-expression-goal"] }

def c9wsit : Gloss :=
  { content := "s", language := "eng", slug := "s", children := ["spa:w"] }

def c9wstore : Store := [(("eng", "s"), c9wsit), (("spa", "w"), c9wgoal)]

/-- C10 fixture: two plain glosses in different languages. -/
def c10a : Gloss := { content := "hello", language := "eng", slug := "hello" }

def c10b : Gloss := { content := "hola", language := "spa", slug := "hola" }

/-! ### Theorems about the claims -/

/-! ### Theorems settling the claims -/

/-- The second line of a joined line list occurs in the joined string. -/
theorem jsJoin_second (a b : String) (rest : List String) :
    ∃ pre post, jsJoin "\n" (a :: b :: rest) = pre ++ (b ++ post) := by
  cases rest with
  | nil => exact ⟨a ++ "\n", "", by simp [jsJoin]⟩
  | cons c cs =>
    refine ⟨a ++ "\n", "\n" ++ jsJoin "\n" (c :: cs), ?_⟩
    show jsJoin "\n" (a :: b :: c :: cs) = _
    rw [jsJoin, jsJoin]
    simp [String.append_assoc]

/-- C5: `evaluateGoalState` is total by construction (it is a Lean function),
and when the gloss is not a valid goal for the language pair (goal kind
`null`) it returns state `red` with a rationale log containing the line
`kind=unknown`. -/
theorem c5_total_red_unknown (g : Gloss) (store : Store) (nL tL : String)
    (h : detectGoalType g (normalizeLanguageCode nL) (normalizeLanguageCode tL) = none) :
    (evaluateGoalState g store nL tL).state = GoalState.red ∧
      ∃ pre post, (evaluateGoalState g store nL tL).log = pre ++ ("kind=unknown" ++ post) := by
  constructor
  · simp [evaluateGoalState, h]
  · simp only [evaluateGoalState, h]
    simp only [List.cons_append, List.nil_append]
    exact jsJoin_second _ _ _

/-- C5 witness: a plain gloss that is no goal evaluates to `red` with the
`kind=unknown` line. -/
theorem c5_total_red_unknown_witness :
    (evaluateGoalState c3t1 c3store "eng" "spa").state = GoalState.red ∧
      ∃ pre post,
        (evaluateGoalState c3t1 c3store "eng" "spa").log = pre ++ ("kind=unknown" ++ post) :=
  c5_total_red_unknown c3t1 c3store "eng" "spa" (by decide)

/-- C6 counterexample: with native = target = `eng`, the gloss tagged with
both goal tags has `gloss.language` equal to the target and carries
`eng:understand-expression-goal`, yet `detectGoalType` returns `procedural`,
refuting the claimed `understanding` biconditional. -/
theorem c6_counterexample :
    normalizeLanguageCode c6g.language = normalizeLanguageCode "eng" ∧
    c6g.tags.contains "eng:understand-expression-goal" = true ∧
    detectGoalType c6g "eng" "eng" ≠ some GoalType.understanding ∧
    detectGoalType c6g "eng" "eng" = some GoalType.procedural := by
  decide

/-- C6 (amended): `detectGoalType` returns `procedural` iff the normalized
language equals native and the procedural tag is present; it returns
`understanding` iff the language equals target with the understanding tag
present and the procedural condition does not hold (the procedural check
takes precedence); it returns `null` whenever the language matches neither
code.  It is pure by construction. -/
theorem c6_detect_characterization (g : Gloss) (nL tL : String) :
    (detectGoalType g nL tL = some GoalType.procedural ↔
      (normalizeLanguageCode g.language = normalizeLanguageCode nL ∧
        "eng:procedural-paraphrase-expression-goal" ∈ g.tags)) ∧
    (detectGoalType g nL tL = some GoalType.understanding ↔
      ((normalizeLanguageCode g.language = normalizeLanguageCode tL ∧
        "eng:understand-expression-goal" ∈ g.tags) ∧
       ¬(normalizeLanguageCode g.language = normalizeLanguageCode nL ∧
        "eng:procedural-paraphrase-expression-goal" ∈ g.tags))) ∧
    (normalizeLanguageCode g.language ≠ normalizeLanguageCode nL →
     normalizeLanguageCode g.language ≠ normalizeLanguageCode tL →
     detectGoalType g nL tL = none) := by
  by_cases h1 : normalizeLanguageCode g.language = normalizeLanguageCode nL ∧
      "eng:procedural-paraphrase-expression-goal" ∈ g.tags
  · exact ⟨by simp [detectGoalType, h1], by simp [detectGoalType, h1],
      fun hA _ => absurd h1.1 hA⟩
  · by_cases h2 : normalizeLanguageCode g.language = normalizeLanguageCode tL ∧
        "eng:understand-expression-goal" ∈ g.tags
    · exact ⟨by simp [detectGoalType, h1, h2], by simp [detectGoalType, h1, h2],
        fun _ hB => absurd h2.1 hB⟩
    · exact ⟨by simp [detectGoalType, h1, h2], by simp [detectGoalType, h1, h2],
        fun _ _ => by simp [detectGoalType, h1, h2]⟩

/-- C6 witness: the characterization applied to the understanding goal of the
C3 fixture for the pair (eng, spa). -/
theorem c6_detect_characterization_witness :
    detectGoalType c3goal "eng" "spa" = some GoalType.understanding :=
  (c6_detect_characterization c3goal "eng" "spa").2.1.mpr (by decide)

/-- C1 counterexample: for an understanding goal that satisfies the Yellow
conditions and the claimed Green conditions (two resolved native
translations; its one recursively resolved part has two usage examples, each
translated into native), `evaluateGoalState` still answers `yellow` — the
implementation's `GoalState` has no `green` value, so `green` is not a
reachable output and the claimed biconditional fails. -/
theorem c1_green_counterexample :
    (evaluateGoalState c1goal c1store "eng" "spa").state.asString = "yellow" ∧
    (evaluateGoalState c1goal c1store "eng" "spa").state.asString ≠ "green" ∧
    2 ≤ (resolvedTranslations c1store c1goal "eng").length ∧
    (∀ p ∈ c1goal.parts.filterMap (fun r => resolveReference c1store r),
      2 ≤ (usageExamples c1store p).length ∧
        ∀ u ∈ usageExamples c1store p, 1 ≤ (resolvedTranslations c1store u "eng").length) := by
  have e1 : normalizeLanguageCode "eng" = "eng" := rfl
  have e2 : normalizeLanguageCode "spa" = "spa" := rfl
  have h1 : standardPartsCheck c1store "eng" "spa" c1goal [] true = ⟨true, [], [], []⟩ := by
    unfold standardPartsCheck
    simp +decide +ground [spcList_nil, spcList_cons_none, spcList_cons_mem, spcList_cons_new]
  have hd : detectGoalType c1goal "eng" "spa" = some GoalType.understanding := by decide
  refine ⟨?_, ?_, by decide, by decide⟩
  · simp only [evaluateGoalState, e1, e2, hd, h1]
    decide
  · simp only [evaluateGoalState, e1, e2, hd, h1]
    decide

/-- C1 (amended): `evaluateGoalState` always returns a state drawn from
`{red, yellow}`; the string `green` is never an output. -/
theorem c1_state_red_or_yellow (g : Gloss) (store : Store) (nL tL : String) :
    ((evaluateGoalState g store nL tL).state = GoalState.red ∨
      (evaluateGoalState g store nL tL).state = GoalState.yellow) ∧
    (evaluateGoalState g store nL tL).state.asString ≠ "green" := by
  cases h : (evaluateGoalState g store nL tL).state with
  | red => exact ⟨Or.inl rfl, by simp [GoalState.asString]⟩
  | yellow => exact ⟨Or.inr rfl, by simp [GoalState.asString]⟩

/-- C3 counterexample: in the claimed Scenario-2 store (understanding goal
with one native translation and one part that itself has one native
translation, and no other relationships or log markers anywhere),
`evaluateGoalState` returns `red`, not the claimed `yellow` — the part
itself fails the parts and usage checks of the recursion. -/
theorem c3_counterexample :
    (evaluateGoalState c3goal c3store "eng" "spa").state = GoalState.red := by
  have e1 : normalizeLanguageCode "eng" = "eng" := rfl
  have e2 : normalizeLanguageCode "spa" = "spa" := rfl
  have h1 : standardPartsCheck c3store "eng" "spa" c3goal [] true =
      ⟨false, [], ["spa:p1"], ["spa:p1"]⟩ := by
    unfold standardPartsCheck
    simp +decide +ground [spcList_nil, spcList_cons_none, spcList_cons_mem, spcList_cons_new]
  have hd : detectGoalType c3goal "eng" "spa" = some GoalType.understanding := by decide
  simp only [evaluateGoalState, e1, e2, hd, h1]
  decide

/-- C3 (amended): the Scenario-2 goal evaluates to `yellow` once its part
additionally carries the split-unnecessary and usage-impossible markers;
with the part absent entirely the goal evaluates to `red` and the
missing-parts set of the recursion is exactly the goal's own reference. -/
theorem c3_amended :
    (evaluateGoalState c3goal c3storem "eng" "spa").state = GoalState.yellow ∧
    (evaluateGoalState c3goal0 c3store0 "eng" "spa").state = GoalState.red ∧
    (standardPartsCheck c3store0 "eng" "spa" c3goal0 [] true).missingParts = ["spa:goal1"] := by
  have e1 : normalizeLanguageCode "eng" = "eng" := rfl
  have e2 : normalizeLanguageCode "spa" = "spa" := rfl
  have h1 : standardPartsCheck c3storem "eng" "spa" c3goal [] true = ⟨true, [], [], []⟩ := by
    unfold standardPartsCheck
    simp +decide +ground [spcList_nil, spcList_cons_none, spcList_cons_mem, spcList_cons_new]
  have h0 : standardPartsCheck c3store0 "eng" "spa" c3goal0 [] true =
      ⟨false, [], ["spa:goal1"], []⟩ := by
    unfold standardPartsCheck
    simp +decide +ground [spcList_nil, spcList_cons_none, spcList_cons_mem, spcList_cons_new]
  have hd : detectGoalType c3goal "eng" "spa" = some GoalType.understanding := by decide
  have hd0 : detectGoalType c3goal0 "eng" "spa" = some GoalType.understanding := by decide
  refine ⟨?_, ?_, by rw [h0]⟩
  · simp only [evaluateGoalState, e1, e2, hd, h1]
    decide
  · simp only [evaluateGoalState, e1, e2, hd0, h0]
    decide

/-- C2 counterexample: a procedural goal (native-language gloss tagged
`eng:paraphrase`) with one qualifying target translation that satisfies the
Standard Parts Recursion, but with no parts of its own and no
`SPLIT_CONSIDERED_UNNECESSARY` marker, evaluates to `red` — the
implementation requires the goal itself to be checked for parts, so the
claimed "at least yellow" fails. -/
theorem c2_counterexample :
    detectGoalType c2goal "eng" "spa" = some GoalType.procedural ∧
    c2goal.tags.contains "eng:paraphrase" = true ∧
    resolvedTranslations c2store c2goal "spa" true = [c2tr] ∧
    (standardPartsCheck c2store "eng" "spa" c2tr [] false).ok = true ∧
    c2goal.parts = [] ∧
    hasLog c2goal SPLIT_LOG_MARKER = false ∧
    (evaluateGoalState c2goal c2store "eng" "spa").state = GoalState.red := by
  have e1 : normalizeLanguageCode "eng" = "eng" := rfl
  have e2 : normalizeLanguageCode "spa" = "spa" := rfl
  have hres : resolvedTranslations c2store c2goal "spa" true = [c2tr] := by decide
  have htr : standardPartsCheck c2store "eng" "spa" c2tr [] false = ⟨true, [], [], []⟩ := by
    unfold standardPartsCheck
    simp +decide +ground [spcList_nil, spcList_cons_none, spcList_cons_mem, spcList_cons_new]
  have hd : detectGoalType c2goal "eng" "spa" = some GoalType.procedural := by decide
  refine ⟨hd, by decide, hres, by rw [htr], by decide, by decide, ?_⟩
  simp only [evaluateGoalState, e1, e2, hd, hres, htr]
  decide

/-- C2 (amended): for a gloss detected as a procedural goal,
`evaluateGoalState` answers `yellow` exactly when the language and
`eng:paraphrase` tag checks pass, a qualifying (non-paraphrase) target
translation exists or is logged impossible, the goal itself has parts or
carries the split-unnecessary marker (the goal's own parts check IS required
for Yellow), every qualifying target translation satisfies the Standard
Parts Recursion, and the goal's own parts (when present) satisfy it too. -/
theorem c2_procedural_yellow_iff (g : Gloss) (store : Store) (nL tL : String)
    (h : detectGoalType g (normalizeLanguageCode nL) (normalizeLanguageCode tL) =
      some GoalType.procedural) :
    ((evaluateGoalState g store nL tL).state = GoalState.yellow ↔
      ((normalizeLanguageCode g.language == normalizeLanguageCode nL) = true ∧
       g.tags.contains "eng:paraphrase" = true ∧
       (!(resolvedTranslations store g (normalizeLanguageCode tL) true).isEmpty ||
         hasLog g (TRANSLATION_IMPOSSIBLE_MARKER ++ ":" ++ normalizeLanguageCode tL)) = true ∧
       (!g.parts.isEmpty || hasLog g SPLIT_LOG_MARKER) = true ∧
       (∀ t ∈ resolvedTranslations store g (normalizeLanguageCode tL) true,
         (standardPartsCheck store (normalizeLanguageCode nL) (normalizeLanguageCode tL)
           t [] false).ok = true) ∧
       (g.parts.isEmpty = true ∨
         (standardPartsCheck store (normalizeLanguageCode nL) (normalizeLanguageCode tL)
           g [] false).ok = true))) := by
  simp only [evaluateGoalState, h]
  by_cases hp : g.parts.isEmpty = true
  · simp [hp, Bool.and_eq_true, List.all_eq_true, and_assoc]
  · simp [hp, Bool.and_eq_true, List.all_eq_true, and_assoc]

/-- C2 witness: with the split-unnecessary marker added to the goal, all the
amended Yellow conditions hold and the state is `yellow`. -/
theorem c2_procedural_yellow_iff_witness :
    (evaluateGoalState c2goalm c2storem "eng" "spa").state = GoalState.yellow := by
  have e1 : normalizeLanguageCode "eng" = "eng" := rfl
  have e2 : normalizeLanguageCode "spa" = "spa" := rfl
  have hres : resolvedTranslations c2storem c2goalm "spa" true = [c2tr] := by decide
  have htr : standardPartsCheck c2storem "eng" "spa" c2tr [] false = ⟨true, [], [], []⟩ := by
    unfold standardPartsCheck
    simp +decide +ground [spcList_nil, spcList_cons_none, spcList_cons_mem, spcList_cons_new]
  refine (c2_procedural_yellow_iff c2goalm c2storem "eng" "spa" (by decide)).mpr ?_
  rw [e1, e2, hres]
  refine ⟨by decide, by decide, by decide, by decide, ?_, Or.inl (by decide)⟩
  intro t ht
  have : t = c2tr := by simpa using ht
  rw [this, htr]

/-- C4: the cycle guards.  `standardPartsCheck` answers immediately (a
trivially satisfied result, no expansion) for a gloss already on the visited
path, and every node the tree builder's parts recursion emits for a gloss
already on the current visited path has zero children.  Both functions are
total Lean functions for every store, cyclic stores included — termination
is enforced by the path-based measure they are defined with. -/
theorem c4_cycle_guard :
    (∀ (store : Store) (n t : String) (g : Gloss) (path : List String) (skip : Bool),
      glossRef g ∈ path → standardPartsCheck store n t g path skip = spcOk) ∧
    (∀ (store : Store) (native target goalRootRef learnLang : String)
        (partsLine skipUsage : Bool) (parentKey : String) (refs path : List String)
        (stats : TreeStats),
      ∀ nd ∈ (bpl store native target goalRootRef learnLang partsLine skipUsage parentKey
        refs path stats).1, glossKey nd.gloss ∈ path → nd.children = []) := by
  constructor
  · intro store n t g path skip h
    unfold standardPartsCheck
    rw [if_pos h]
  · intro store native target goalRootRef learnLang partsLine skipUsage parentKey refs path stats
    induction skipUsage, parentKey, refs, path, stats using
        bpl.induct store native target goalRootRef learnLang partsLine with
    | case1 su pk path stats =>
      intro nd hnd
      rw [bpl_nil] at hnd
      simp at hnd
    | case2 su pk partRef rest path stats h ih =>
      intro nd hnd
      rw [bpl_cons_none native target goalRootRef learnLang partsLine su pk rest path stats h]
        at hnd
      exact ih nd hnd
    | case3 su pk partRef rest path stats part h lang counterpart ws partKey s2 hkey ih =>
      intro nd hnd
      rw [bpl_cons_mem native target goalRootRef learnLang partsLine su pk rest path stats
        h hkey] at hnd
      simp only [] at hnd
      rcases List.mem_cons.mp hnd with he | ht
      · intro _
        rw [he]
        rfl
      · exact ih nd ht
    | case4 su pk partRef rest path stats part h lang counterpart ws partKey s2 hkey
        nextPath tRes uRes pRes ih1 ih2 ih3 ih4 ih5 ih6 =>
      intro nd hnd
      rw [bpl_cons_new native target goalRootRef learnLang partsLine su pk rest path stats
        h hkey] at hnd
      simp only [] at hnd
      rcases List.mem_cons.mp hnd with he | ht
      · intro hmem
        rw [he] at hmem
        exact absurd hmem hkey
      · exact ih6 nd ht

/-- C4 witness: on the cyclic store (`aa.parts = [bb]`, `bb.parts = [aa]`)
the guard of `standardPartsCheck` fires for `aa` on the path, and the node
the builder emits for the second occurrence of `aa` has zero children. -/
theorem c4_cycle_guard_witness :
    standardPartsCheck c4store "eng" "spa" c4a ["spa:aa"] true = spcOk ∧
    ∀ nd ∈ (bpl c4store "eng" "spa" "spa:aa" "spa" true false "spa:bb"
      ["spa:aa"] ["spa:bb", "spa:aa"] {}).1, nd.children = [] := by
  have hb : (bpl c4store "eng" "spa" "spa:aa" "spa" true false "spa:bb"
      ["spa:aa"] ["spa:bb", "spa:aa"] {}).1.map (fun nd => glossKey nd.gloss) = ["spa:aa"] := by
    simp +decide +ground [bpl_nil, bpl_cons_none, bpl_cons_mem, bpl_cons_new,
      TreeNode.gloss, glossKey]
  constructor
  · exact c4_cycle_guard.1 c4store "eng" "spa" c4a ["spa:aa"] true (by decide)
  · intro nd hnd
    refine c4_cycle_guard.2 c4store "eng" "spa" "spa:aa" "spa" true false "spa:bb"
      ["spa:aa"] ["spa:bb", "spa:aa"] {} nd hnd ?_
    have hmap : glossKey nd.gloss ∈ (bpl c4store "eng" "spa" "spa:aa" "spa" true false "spa:bb"
        ["spa:aa"] ["spa:bb", "spa:aa"] {}).1.map (fun nd => glossKey nd.gloss) :=
      List.mem_map_of_mem _ hnd
    rw [hb] at hmap
    have : glossKey nd.gloss = "spa:aa" := by simpa using hmap
    rw [this]
    decide

/-- Roots whose lowercased state is neither yellow nor green are skipped by
the export goal loop. -/
theorem exportGoalStep_skip (acc : ExportAcc) (root : TreeNode)
    (h : (jsToLower root.state == "yellow" || jsToLower root.state == "green") = false) :
    exportGoalStep acc root = acc := by
  unfold exportGoalStep
  rw [Bool.or_eq_false_iff] at h
  rw [if_pos]
  simp only [bne, h.1, h.2]
  rfl

/-- The export goal loop ignores every root below yellow. -/
theorem foldl_export_filter (nodes : List TreeNode) (acc : ExportAcc) :
    nodes.foldl exportGoalStep acc =
      (nodes.filter (fun root =>
        jsToLower root.state == "yellow" || jsToLower root.state == "green")).foldl
        exportGoalStep acc := by
  induction nodes generalizing acc with
  | nil => rfl
  | cons root rest ih =>
    by_cases h : (jsToLower root.state == "yellow" || jsToLower root.state == "green") = true
    · rw [List.foldl_cons, List.filter_cons, if_pos h, List.foldl_cons]
      exact ih _
    · have hf : (jsToLower root.state == "yellow" || jsToLower root.state == "green") = false :=
        Bool.eq_false_iff.mpr h
      rw [List.foldl_cons, exportGoalStep_skip acc root hf, List.filter_cons,
        if_neg (by simp [hf])]
      exact ih _

/-- C7: a goal root whose evaluated state is below yellow (red or empty)
contributes nothing to the batch export: the export output over any node
list equals the output over the list with all such roots removed, so neither
a payload entry nor any reference from that goal's subtree is produced. -/
theorem c7_export_skips_below_yellow (nodes : List TreeNode) (initialRefs : List String) :
    performBatchExportGoals nodes initialRefs =
      performBatchExportGoals
        (nodes.filter (fun root =>
          jsToLower root.state == "yellow" || jsToLower root.state == "green")) initialRefs :=
  foldl_export_filter nodes _

/-- Every root `buildGoalNodes` produces is labelled `procedural` or
`understanding`. -/
theorem buildGoalNodes_goal_type (situation : Gloss) (store : Store) (nL tL : String) :
    ∀ root ∈ (buildGoalNodes situation store nL tL).1,
      root.goal_type = some "procedural" ∨ root.goal_type = some "understanding" := by
  unfold buildGoalNodes
  simp only []
  generalize hinit : (([], {}) : List TreeNode × TreeStats) = acc0
  have hbase : ∀ r ∈ acc0.1,
      r.goal_type = some "procedural" ∨ r.goal_type = some "understanding" := by
    rw [← hinit]
    intro r hr
    simp at hr
  clear hinit
  induction situation.children generalizing acc0 with
  | nil => exact hbase
  | cons ref rest ih =>
    rw [List.foldl_cons]
    apply ih
    cases hres : resolveReference store ref with
    | none => simpa [hres] using hbase
    | some gloss =>
      cases hdt : detectGoalType gloss (normalizeLanguageCode nL) (normalizeLanguageCode tL) with
      | none => simpa [hres, hdt] using hbase
      | some goalKind =>
        simp only [hres, hdt]
        intro r hr
        rcases List.mem_append.mp hr with hl | hrr
        · exact hbase r hl
        · rw [List.mem_singleton] at hrr
          subst hrr
          cases goalKind with
          | procedural => exact Or.inl (by simp [TreeNode.goal_type])
          | understanding => exact Or.inr (by simp [TreeNode.goal_type])

/-- A root whose `goal_type` is not the string `understand` never lands in
the understand payload. -/
theorem exportGoalStep_understand (acc : ExportAcc) (root : TreeNode)
    (h : root.goal_type ≠ some "understand") :
    (exportGoalStep acc root).understand = acc.understand := by
  unfold exportGoalStep
  by_cases h1 : (jsToLower root.state != "yellow" && jsToLower root.state != "green") = true
  · rw [if_pos h1]
  · rw [if_neg h1]
    by_cases h2 : (root.goal_type != some "procedural" &&
        root.goal_type != some "understand") = true
    · rw [if_pos h2]
    · rw [if_neg h2]
      have h3 : (root.goal_type == some "procedural") = true := by
        rcases Bool.and_eq_false_iff.mp (Bool.eq_false_iff.mpr h2) with hp | hu
        · simpa [bne] using hp
        · exact absurd (by simpa [bne] using hu) h
      rw [if_pos h3]

/-- The understand payload stays empty over any node list without an
`understand`-typed root. -/
theorem foldl_export_understand (nodes : List TreeNode) :
    (∀ r ∈ nodes, r.goal_type ≠ some "understand") →
    ∀ (acc : ExportAcc), acc.understand = [] →
      (nodes.foldl exportGoalStep acc).understand = [] := by
  induction nodes with
  | nil =>
    intro _ acc h
    simpa using h
  | cons root rest ih =>
    intro htypes acc hacc
    rw [List.foldl_cons]
    refine ih (fun r hr => htypes r (List.mem_cons_of_mem _ hr)) _ ?_
    rw [exportGoalStep_understand acc root (htypes root (List.mem_cons_self _ _)), hacc]

/-- C8: the batch exporter's `understand-expression-goals` payload is always
empty for the trees `buildGoalNodes` produces: the builder labels
understanding roots with the string `understanding`, while the exporter only
accepts `procedural` or `understand`, so no understanding goal is ever
exported. -/
theorem c8_understand_payload_empty (situation : Gloss) (store : Store) (nL tL : String)
    (initialRefs : List String) :
    (performBatchExportGoals (buildGoalNodes situation store nL tL).1 initialRefs).understand
      = [] := by
  apply foldl_export_understand
  · intro r hr
    rcases buildGoalNodes_goal_type situation store nL tL r hr with hp | hu
    · rw [hp]
      simp
    · rw [hu]
      simp
  · rfl
theorem findReplaceSelf (k : String × String) (g : Gloss) (l : Store)
    (hany : l.any (fun e => e.1 == k) = true) :
    List.find? (fun e => e.1 == k)
      (l.map (fun e => if e.1 == k then (k, g) else e)) = some (k, g) := by
  induction l with
  | nil => simp at hany
  | cons e es ih =>
    rw [List.map_cons]
    by_cases he : (e.1 == k) = true
    · rw [if_pos he]
      exact List.find?_cons_of_pos (p := fun x : (String × String) × Gloss => x.1 == k) _ (by simp)
    · rw [if_neg he]
      rw [List.find?_cons_of_neg (p := fun x : (String × String) × Gloss => x.1 == k) _ he]
      apply ih
      simp only [List.any_cons, Bool.or_eq_true] at hany
      exact hany.resolve_left he

theorem findReplaceOther (k k2 : String × String) (g : Gloss) (l : Store)
    (hne : k2 ≠ k) :
    List.find? (fun e => e.1 == k2)
      (l.map (fun e => if e.1 == k then (k, g) else e)) =
      List.find? (fun e => e.1 == k2) l := by
  have h1 : ((k, g).1 == k2) = false := beq_eq_false_iff_ne.mpr (fun h => hne h.symm)
  induction l with
  | nil => rfl
  | cons e es ih =>
    rw [List.map_cons]
    by_cases he : (e.1 == k) = true
    · have hek : e.1 = k := eq_of_beq he
      have h2 : (e.1 == k2) = false := by
        rw [hek]
        exact beq_eq_false_iff_ne.mpr (fun h => hne h.symm)
      rw [if_pos he, List.find?_cons_of_neg (p := fun x : (String × String) × Gloss => x.1 == k2) _ (by simp only []; rw [h1]; simp),
        List.find?_cons_of_neg (p := fun x : (String × String) × Gloss => x.1 == k2) _ (by simp only []; rw [h2]; simp), ih]
    · rw [if_neg he]
      by_cases he2 : (e.1 == k2) = true
      · rw [List.find?_cons_of_pos (p := fun x : (String × String) × Gloss => x.1 == k2) _ he2,
          List.find?_cons_of_pos (p := fun x : (String × String) × Gloss => x.1 == k2) _ he2]
      · rw [List.find?_cons_of_neg (p := fun x : (String × String) × Gloss => x.1 == k2) _ he2,
          List.find?_cons_of_neg (p := fun x : (String × String) × Gloss => x.1 == k2) _ he2, ih]

theorem storeFind_storeInsert_self (store : Store) (k : String × String) (g : Gloss) :
    storeFind (storeInsert store k g) k = some g := by
  unfold storeFind storeInsert
  by_cases hany : store.any (fun e => e.1 == k)
  · rw [if_pos hany, findReplaceSelf k g store hany]
    rfl
  · rw [if_neg hany]
    have hf : store.find? (fun e => e.1 == k) = none := by
      rw [List.find?_eq_none]
      intro x hx
      simp only [List.any_eq_true] at hany
      exact fun hpx => hany ⟨x, hx, hpx⟩
    rw [List.find?_append, hf]
    simp

theorem storeFind_storeInsert_other (store : Store) (k k2 : String × String) (g : Gloss)
    (hne : k2 ≠ k) : storeFind (storeInsert store k g) k2 = storeFind store k2 := by
  unfold storeFind storeInsert
  by_cases hany : store.any (fun e => e.1 == k)
  · rw [if_pos hany, findReplaceOther k k2 g store hne]
  · rw [if_neg hany, List.find?_append]
    have h1 : ((k, g).1 == k2) = false := beq_eq_false_iff_ne.mpr (fun h => hne h.symm)
    rw [List.find?_cons_of_neg (p := fun x : (String × String) × Gloss => x.1 == k2) _ (by simp only []; rw [h1]; simp)]
    cases store.find? (fun e => e.1 == k2) <;> simp

theorem resolveReference_canonical (store : Store) (lang slug : String)
    (hl : lang ≠ "") (hs : slug ≠ "")
    (htl : jsTrim lang = lang) (hts : jsTrim slug = slug)
    (hsplit : jsSplit ':' (lang ++ ":" ++ slug) = [lang, slug]) :
    resolveReference store (lang ++ ":" ++ slug) = loadGloss store lang slug := by
  unfold resolveReference
  rw [hsplit]
  simp only [jsJoin, htl, hts]
  rw [if_neg]
  push_neg
  exact ⟨hl, hs⟩



theorem detachRelation_translations (store s1 s2 : Store) (base target : Gloss)
    (targetRef : String)
    (hsave : saveGloss store (Gloss.setRel base RelationshipField.translations
        ((Gloss.getRel base RelationshipField.translations).filter (fun r => r != targetRef)))
      = Except.ok s1)
    (hres : resolveReference s1 targetRef = some target)
    (hsave2 : saveGloss s1 (Gloss.setRel target RelationshipField.translations
        ((Gloss.getRel target RelationshipField.translations).filter
          (fun r => r != base.language ++ ":" ++ base.slug))) = Except.ok s2) :
    detachRelation store base RelationshipField.translations targetRef
      = Except.ok (s2, Gloss.setRel base RelationshipField.translations
          ((Gloss.getRel base RelationshipField.translations).filter
            (fun r => r != targetRef))) := by
  unfold detachRelation
  simp +decide [hsave, hres, hsave2, Bind.bind, Except.bind, Functor.map, Except.map]
  rfl

/-- C10: the `translations` relation is kept symmetric by the storage layer:
for glosses `A` and `B` with valid (trimmed, lowercase, nonempty) language and
slug stored under distinct keys, `attachRelation A translations B` succeeds and
afterwards the stored `A` lists `B`'s reference and the stored `B` lists `A`'s
reference; a subsequent `detachRelation A translations refB` succeeds and
removes the reference from both sides. -/
theorem c10_translations_symmetric
    (store : Store) (A B : Gloss)
    (hAslug : A.slug ≠ "") (hAlang : A.language ≠ "")
    (hAtl : jsTrim A.language = A.language) (hAts : jsTrim A.slug = A.slug)
    (hAsplit : jsSplit ':' (A.language ++ ":" ++ A.slug) = [A.language, A.slug])
    (hBslug : B.slug ≠ "") (hBlang : B.language ≠ "")
    (hBtl : jsTrim B.language = B.language) (hBts : jsTrim B.slug = B.slug)
    (hBlow : jsToLower B.language = B.language)
    (hBsplit : jsSplit ':' (B.language ++ ":" ++ B.slug) = [B.language, B.slug])
    (hkeys : pathFor A.language A.slug ≠ pathFor B.language B.slug)
    (hfreshA : (B.language ++ ":" ++ B.slug) ∉ A.translations)
    (hfreshB : (A.language ++ ":" ++ A.slug) ∉ B.translations) :
    ∃ s1 A1 B1,
      attachRelation store A RelationshipField.translations B = Except.ok (s1, A1, B1) ∧
      (∃ gA, resolveReference s1 (A.language ++ ":" ++ A.slug) = some gA ∧
        (B.language ++ ":" ++ B.slug) ∈ gA.translations) ∧
      (∃ gB, resolveReference s1 (B.language ++ ":" ++ B.slug) = some gB ∧
        (A.language ++ ":" ++ A.slug) ∈ gB.translations) ∧
      ∃ s2 A2,
        detachRelation s1 A1 RelationshipField.translations (B.language ++ ":" ++ B.slug) =
          Except.ok (s2, A2) ∧
        (∃ gA2, resolveReference s2 (A.language ++ ":" ++ A.slug) = some gA2 ∧
          (B.language ++ ":" ++ B.slug) ∉ gA2.translations) ∧
        (∃ gB2, resolveReference s2 (B.language ++ ":" ++ B.slug) = some gB2 ∧
          (A.language ++ ":" ++ A.slug) ∉ gB2.translations) := by
  have hkeysBA : pathFor B.language B.slug ≠ pathFor A.language A.slug := fun h => hkeys h.symm
  have hattach : attachRelation store A RelationshipField.translations B = Except.ok
      (storeInsert (storeInsert store (pathFor A.language A.slug)
          { A with translations := A.translations ++ [B.language ++ ":" ++ B.slug] })
        (pathFor B.language B.slug)
          { B with translations := B.translations ++ [A.language ++ ":" ++ A.slug] },
        { A with translations := A.translations ++ [B.language ++ ":" ++ B.slug] },
        { B with translations := B.translations ++ [A.language ++ ":" ++ A.slug] }) := by
    unfold attachRelation saveGloss
    simp +decide [Gloss.getRel, Gloss.setRel, hfreshA, hfreshB, hAslug, hAlang, hBslug, hBlang]
    rfl
  have hgA : resolveReference
      (storeInsert (storeInsert store (pathFor A.language A.slug)
          { A with translations := A.translations ++ [B.language ++ ":" ++ B.slug] })
        (pathFor B.language B.slug)
          { B with translations := B.translations ++ [A.language ++ ":" ++ A.slug] })
      (A.language ++ ":" ++ A.slug)
      = some { A with
               translations := A.translations ++ [B.language ++ ":" ++ B.slug],
               language := jsToLower A.language,
               slug := A.slug } := by
    rw [resolveReference_canonical _ _ _ hAlang hAslug hAtl hAts hAsplit]
    unfold loadGloss
    rw [storeFind_storeInsert_other _ _ _ _ hkeys, storeFind_storeInsert_self]
  have hgB : resolveReference
      (storeInsert (storeInsert store (pathFor A.language A.slug)
          { A with translations := A.translations ++ [B.language ++ ":" ++ B.slug] })
        (pathFor B.language B.slug)
          { B with translations := B.translations ++ [A.language ++ ":" ++ A.slug] })
      (B.language ++ ":" ++ B.slug)
      = some { B with
               translations := B.translations ++ [A.language ++ ":" ++ A.slug],
               language := jsToLower B.language,
               slug := B.slug } := by
    rw [resolveReference_canonical _ _ _ hBlang hBslug hBtl hBts hBsplit]
    unfold loadGloss
    rw [storeFind_storeInsert_self]
  have hsaveb : saveGloss
      (storeInsert (storeInsert store (pathFor A.language A.slug)
          { A with translations := A.translations ++ [B.language ++ ":" ++ B.slug] })
        (pathFor B.language B.slug)
          { B with translations := B.translations ++ [A.language ++ ":" ++ A.slug] })
      (Gloss.setRel { A with translations := A.translations ++ [B.language ++ ":" ++ B.slug] }
        RelationshipField.translations
        ((Gloss.getRel { A with translations := A.translations ++ [B.language ++ ":" ++ B.slug] }
            RelationshipField.translations).filter (fun r => r != B.language ++ ":" ++ B.slug)))
      = Except.ok (storeInsert
          (storeInsert (storeInsert store (pathFor A.language A.slug)
              { A with translations := A.translations ++ [B.language ++ ":" ++ B.slug] })
            (pathFor B.language B.slug)
              { B with translations := B.translations ++ [A.language ++ ":" ++ A.slug] })
          (pathFor A.language A.slug)
          { A with translations := (A.translations ++ [B.language ++ ":" ++ B.slug]).filter (fun r => r != B.language ++ ":" ++ B.slug) }) := by
    unfold saveGloss
    simp +decide [Gloss.getRel, Gloss.setRel, hAslug, hAlang]
  have hresB : resolveReference
      (storeInsert
        (storeInsert (storeInsert store (pathFor A.language A.slug)
            { A with translations := A.translations ++ [B.language ++ ":" ++ B.slug] })
          (pathFor B.language B.slug)
            { B with translations := B.translations ++ [A.language ++ ":" ++ A.slug] })
        (pathFor A.language A.slug)
        { A with translations := (A.translations ++ [B.language ++ ":" ++ B.slug]).filter (fun r => r != B.language ++ ":" ++ B.slug) })
      (B.language ++ ":" ++ B.slug)
      = some { B with translations := B.translations ++ [A.language ++ ":" ++ A.slug] } := by
    rw [resolveReference_canonical _ _ _ hBlang hBslug hBtl hBts hBsplit]
    unfold loadGloss
    rw [storeFind_storeInsert_other _ _ _ _ hkeysBA, storeFind_storeInsert_self, hBlow]
  have hsave2 : saveGloss
      (storeInsert
        (storeInsert (storeInsert store (pathFor A.language A.slug)
            { A with translations := A.translations ++ [B.language ++ ":" ++ B.slug] })
          (pathFor B.language B.slug)
            { B with translations := B.translations ++ [A.language ++ ":" ++ A.slug] })
        (pathFor A.language A.slug)
        { A with translations := (A.translations ++ [B.language ++ ":" ++ B.slug]).filter (fun r => r != B.language ++ ":" ++ B.slug) })
      (Gloss.setRel { B with translations := B.translations ++ [A.language ++ ":" ++ A.slug] }
        RelationshipField.translations
        ((Gloss.getRel { B with translations := B.translations ++ [A.language ++ ":" ++ A.slug] }
            RelationshipField.translations).filter (fun r => r != A.language ++ ":" ++ A.slug)))
      = Except.ok (storeInsert
          (storeInsert
            (storeInsert (storeInsert store (pathFor A.language A.slug)
                { A with translations := A.translations ++ [B.language ++ ":" ++ B.slug] })
              (pathFor B.language B.slug)
                { B with translations := B.translations ++ [A.language ++ ":" ++ A.slug] })
            (pathFor A.language A.slug)
            { A with translations := (A.translations ++ [B.language ++ ":" ++ B.slug]).filter (fun r => r != B.language ++ ":" ++ B.slug) })
          (pathFor B.language B.slug)
          { B with translations := (B.translations ++ [A.language ++ ":" ++ A.slug]).filter (fun r => r != A.language ++ ":" ++ A.slug) }) := by
    unfold saveGloss
    simp +decide [Gloss.getRel, Gloss.setRel, hBslug, hBlang]
  have hdetach := detachRelation_translations _ _ _
    { A with translations := A.translations ++ [B.language ++ ":" ++ B.slug] }
    { B with translations := B.translations ++ [A.language ++ ":" ++ A.slug] }
    (B.language ++ ":" ++ B.slug) hsaveb hresB hsave2
  have hgA2 : resolveReference
      (storeInsert
        (storeInsert
          (storeInsert (storeInsert store (pathFor A.language A.slug)
              { A with translations := A.translations ++ [B.language ++ ":" ++ B.slug] })
            (pathFor B.language B.slug)
              { B with translations := B.translations ++ [A.language ++ ":" ++ A.slug] })
          (pathFor A.language A.slug)
          { A with translations := (A.translations ++ [B.language ++ ":" ++ B.slug]).filter (fun r => r != B.language ++ ":" ++ B.slug) })
        (pathFor B.language B.slug)
        { B with translations := (B.translations ++ [A.language ++ ":" ++ A.slug]).filter (fun r => r != A.language ++ ":" ++ A.slug) })
      (A.language ++ ":" ++ A.slug)
      = some { A with
               translations := (A.translations ++ [B.language ++ ":" ++ B.slug]).filter (fun r => r != B.language ++ ":" ++ B.slug),
               language := jsToLower A.language,
               slug := A.slug } := by
    rw [resolveReference_canonical _ _ _ hAlang hAslug hAtl hAts hAsplit]
    unfold loadGloss
    rw [storeFind_storeInsert_other _ _ _ _ hkeys, storeFind_storeInsert_self]
  have hgB2 : resolveReference
      (storeInsert
        (storeInsert
          (storeInsert (storeInsert store (pathFor A.language A.slug)
              { A with translations := A.translations ++ [B.language ++ ":" ++ B.slug] })
            (pathFor B.language B.slug)
              { B with translations := B.translations ++ [A.language ++ ":" ++ A.slug] })
          (pathFor A.language A.slug)
          { A with translations := (A.translations ++ [B.language ++ ":" ++ B.slug]).filter (fun r => r != B.language ++ ":" ++ B.slug) })
        (pathFor B.language B.slug)
        { B with translations := (B.translations ++ [A.language ++ ":" ++ A.slug]).filter (fun r => r != A.language ++ ":" ++ A.slug) })
      (B.language ++ ":" ++ B.slug)
      = some { B with translations := (B.translations ++ [A.language ++ ":" ++ A.slug]).filter (fun r => r != A.language ++ ":" ++ A.slug) } := by
    rw [resolveReference_canonical _ _ _ hBlang hBslug hBtl hBts hBsplit]
    unfold loadGloss
    rw [storeFind_storeInsert_self, hBlow]
  exact ⟨_, _, _, hattach, ⟨_, hgA, by simp⟩, ⟨_, hgB, by simp⟩, _, _, hdetach,
    ⟨_, hgA2, by simp⟩, ⟨_, hgB2, by simp⟩⟩

theorem c10_translations_symmetric_witness :
    c10a.slug ≠ "" ∧ c10b.slug ≠ "" ∧
    pathFor c10a.language c10a.slug ≠ pathFor c10b.language c10b.slug ∧
    (∃ s1 A1 B1,
      attachRelation [] c10a RelationshipField.translations c10b = Except.ok (s1, A1, B1) ∧
      (∃ gA, resolveReference s1 (c10a.language ++ ":" ++ c10a.slug) = some gA ∧
        (c10b.language ++ ":" ++ c10b.slug) ∈ gA.translations) ∧
      (∃ gB, resolveReference s1 (c10b.language ++ ":" ++ c10b.slug) = some gB ∧
        (c10a.language ++ ":" ++ c10a.slug) ∈ gB.translations) ∧
      ∃ s2 A2,
        detachRelation s1 A1 RelationshipField.translations (c10b.language ++ ":" ++ c10b.slug) =
          Except.ok (s2, A2) ∧
        (∃ gA2, resolveReference s2 (c10a.language ++ ":" ++ c10a.slug) = some gA2 ∧
          (c10b.language ++ ":" ++ c10b.slug) ∉ gA2.translations) ∧
        (∃ gB2, resolveReference s2 (c10b.language ++ ":" ++ c10b.slug) = some gB2 ∧
          (c10a.language ++ ":" ++ c10a.slug) ∉ gB2.translations)) :=
  ⟨by decide, by decide, by decide,
    c10_translations_symmetric [] c10a c10b (by decide) (by decide) (by decide) (by decide)
      (by decide) (by decide) (by decide) (by decide) (by decide) (by decide) (by decide)
      (by decide) (by decide) (by decide)⟩

theorem c9_parts_missing_eval :
    (buildGoalNodes c9sit c9store "eng" "spa").2.parts_missing = ["eng:x9"] := by
  have e1 : normalizeLanguageCode "eng" = "eng" := rfl
  have e2 : normalizeLanguageCode "spa" = "spa" := rfl
  have hres : resolveReference c9store "spa:g9" = some c9g := by decide
  have hd : detectGoalType c9g "eng" "spa" = some GoalType.understanding := by decide
  simp only [buildGoalNodes, e1, e2, List.foldl_cons, List.foldl_nil, hres, hd]
  simp +decide +ground [buildPartsNodes, bpl_nil, bpl_cons_none, bpl_cons_mem, bpl_cons_new]

theorem c9_node_eval :
    ("eng:x9", "translation", false) ∈
      (subnodesList (buildGoalNodes c9sit c9store "eng" "spa").1).map
        (fun n => (glossKey n.gloss, n.role, n.warn_parts_missing)) := by
  have e1 : normalizeLanguageCode "eng" = "eng" := rfl
  have e2 : normalizeLanguageCode "spa" = "spa" := rfl
  have hres : resolveReference c9store "spa:g9" = some c9g := by decide
  have hd : detectGoalType c9g "eng" "spa" = some GoalType.understanding := by decide
  simp only [buildGoalNodes, e1, e2, List.foldl_cons, List.foldl_nil, hres, hd]
  simp +decide +ground [buildPartsNodes, bpl_nil, bpl_cons_none, bpl_cons_mem, bpl_cons_new,
    subnodes, subnodesList, TreeNode.gloss, TreeNode.role, TreeNode.warn_parts_missing,
    glossKey]

/-- C9 counterexample: the warning flags do not agree with the final stats.
In the `c9store` tree the gloss `eng:x9` appears once as a translation node
(created before anything was recorded about it, all warning flags `false`)
and once as a part node whose checks record `eng:x9` into
`stats.parts_missing`; so the final stats list `eng:x9` as parts-missing
while the translation node for the same gloss carries
`warn_parts_missing = false`, refuting the claimed iff. -/
theorem c9_counterexample :
    ("eng:x9", "translation", false) ∈
      (subnodesList (buildGoalNodes c9sit c9store "eng" "spa").1).map
        (fun n => (glossKey n.gloss, n.role, n.warn_parts_missing)) ∧
    "eng:x9" ∈ (buildGoalNodes c9sit c9store "eng" "spa").2.parts_missing := by
  refine ⟨c9_node_eval, ?_⟩
  rw [c9_parts_missing_eval]
  decide

theorem statsLe_refl (s : TreeStats) : statsLe s s :=
  ⟨fun _ h => h, fun _ h => h, fun _ h => h, fun _ h => h⟩

theorem statsLe_trans {a b c : TreeStats} (h1 : statsLe a b) (h2 : statsLe b c) :
    statsLe a c :=
  ⟨fun k h => h2.1 k (h1.1 k h), fun k h => h2.2.1 k (h1.2.1 k h),
   fun k h => h2.2.2.1 k (h1.2.2.1 k h), fun k h => h2.2.2.2 k (h1.2.2.2 k h)⟩

theorem nodeWarnSound_mono {a b : TreeStats} {n : TreeNode} (hle : statsLe a b)
    (h : nodeWarnSound a n) : nodeWarnSound b n :=
  ⟨fun hw => hle.1 _ (h.1 hw), fun hw => hle.2.1 _ (h.2.1 hw),
   fun hw => hle.2.2.2 _ (h.2.2.1 hw), fun hw => hle.2.2.1 _ (h.2.2.2 hw)⟩

theorem addSet_mem_of {l : List String} {k : String} (x : String) (h : k ∈ l) :
    k ∈ addSet l x := by
  unfold addSet
  split
  · exact h
  · exact List.mem_append_left _ h

theorem recordMissing_le (s : TreeStats) (k : MissingKind) (key ref : String) :
    statsLe s (recordMissing s k key ref) := by
  cases k
  · exact ⟨fun a h => addSet_mem_of key h, fun a h => h, fun a h => h, fun a h => h⟩
  · exact ⟨fun a h => h, fun a h => addSet_mem_of key h, fun a h => h, fun a h => h⟩
  · exact ⟨fun a h => h, fun a h => h, fun a h => addSet_mem_of key h, fun a h => h⟩
  · exact ⟨fun a h => h, fun a h => h, fun a h => h, fun a h => addSet_mem_of key h⟩

theorem statsLe_record {a b : TreeStats} (h : statsLe a b) (k : MissingKind)
    (key ref : String) : statsLe a (recordMissing b k key ref) :=
  statsLe_trans h (recordMissing_le b k key ref)

theorem computeWarnings_le (store : Store) (n t : String) (s : TreeStats) (gl : Gloss)
    (ref : String) (opts : WarnOptions) :
    statsLe s (computeWarnings store n t s gl ref opts).2 := by
  unfold computeWarnings
  simp only []
  have h1 : statsLe s { s with
      gloss_map := mapInsertGloss s.gloss_map (glossKey gl) gl,
      situation_glosses := addSet s.situation_glosses (glossKey gl) } :=
    ⟨fun _ h => h, fun _ h => h, fun _ h => h, fun _ h => h⟩
  repeat' first
    | exact h1
    | apply statsLe_record
    | split

theorem addLearnable_le (s : TreeStats) (gl : Gloss) (learnLang : String) (pl : Bool) :
    statsLe s (addLearnable s gl learnLang pl) := by
  unfold addLearnable
  split
  · exact ⟨fun _ h => h, fun _ h => h, fun _ h => h, fun _ h => h⟩
  · exact statsLe_refl s

theorem computeWarnings_flags (store : Store) (n t : String) (s : TreeStats) (gl : Gloss)
    (ref : String) (opts : WarnOptions) :
    ((computeWarnings store n t s gl ref opts).1.warn_native_missing = true →
      glossKey gl ∈ (computeWarnings store n t s gl ref opts).2.native_missing) ∧
    ((computeWarnings store n t s gl ref opts).1.warn_target_missing = true →
      glossKey gl ∈ (computeWarnings store n t s gl ref opts).2.target_missing) ∧
    ((computeWarnings store n t s gl ref opts).1.warn_usage_missing = true →
      glossKey gl ∈ (computeWarnings store n t s gl ref opts).2.usage_missing) ∧
    ((computeWarnings store n t s gl ref opts).1.warn_parts_missing = true →
      glossKey gl ∈ (computeWarnings store n t s gl ref opts).2.parts_missing) :=
  ⟨fun h => List.mem_of_elem_eq_true h, fun h => List.mem_of_elem_eq_true h,
   fun h => List.mem_of_elem_eq_true h, fun h => List.mem_of_elem_eq_true h⟩

theorem subnodes_eq (n : TreeNode) : subnodes n = n :: subnodesList n.children := by
  cases n
  rw [subnodes]
  rfl

theorem subnodesList_append (a b : List TreeNode) :
    subnodesList (a ++ b) = subnodesList a ++ subnodesList b := by
  induction a with
  | nil => rfl
  | cons x xs ih =>
    rw [List.cons_append, subnodesList, subnodesList, ih, List.append_assoc]

theorem foldl_statsLe {α : Type} (f : (List TreeNode × TreeStats) → α →
      (List TreeNode × TreeStats))
    (hf : ∀ acc x, statsLe acc.2 (f acc x).2) (l : List α) :
    ∀ acc, statsLe acc.2 (List.foldl f acc l).2 := by
  induction l with
  | nil => exact fun acc => statsLe_refl _
  | cons x xs ih =>
    intro acc
    rw [List.foldl_cons]
    exact statsLe_trans (hf acc x) (ih (f acc x))

theorem foldl_sound {α : Type} (f : (List TreeNode × TreeStats) → α →
      (List TreeNode × TreeStats))
    (hf : ∀ acc x, statsLe acc.2 (f acc x).2)
    (hstep : ∀ acc x, (∀ nd ∈ subnodesList acc.1, nodeWarnSound acc.2 nd) →
      ∀ nd ∈ subnodesList (f acc x).1, nodeWarnSound (f acc x).2 nd) (l : List α) :
    ∀ acc, (∀ nd ∈ subnodesList acc.1, nodeWarnSound acc.2 nd) →
      ∀ nd ∈ subnodesList (List.foldl f acc l).1,
        nodeWarnSound (List.foldl f acc l).2 nd := by
  induction l with
  | nil => exact fun acc h => h
  | cons x xs ih =>
    intro acc hacc
    rw [List.foldl_cons]
    exact ih (f acc x) (hstep acc x hacc)

theorem subnodesList_nil : subnodesList [] = [] := by
  rw [subnodesList.eq_def]

theorem subnodesList_cons (n : TreeNode) (l : List TreeNode) :
    subnodesList (n :: l) = subnodes n ++ subnodesList l := by
  rw [subnodesList.eq_def]

theorem btn_le (store : Store) (native target : String) (gl : Gloss) (otherLang : String)
    (path : List String) (goalRootRef parentRef viaField : String) (rnp : Bool)
    (stats : TreeStats) :
    statsLe stats (buildTranslationNodes store native target gl otherLang path goalRootRef
      parentRef viaField rnp stats).2 := by
  unfold buildTranslationNodes
  refine foldl_statsLe _ ?_ _ ([], stats)
  intro acc x
  simp only []
  split
  · exact statsLe_refl _
  · split
    · exact statsLe_refl _
    · rename_i tGloss _
      split
      · exact statsLe_refl _
      · exact computeWarnings_le store native target acc.2 tGloss goalRootRef {}

theorem btn_sound (store : Store) (native target : String) (gl : Gloss) (otherLang : String)
    (path : List String) (goalRootRef parentRef viaField : String) (rnp : Bool)
    (stats : TreeStats) :
    ∀ nd ∈ subnodesList (buildTranslationNodes store native target gl otherLang path
        goalRootRef parentRef viaField rnp stats).1,
      nodeWarnSound (buildTranslationNodes store native target gl otherLang path
        goalRootRef parentRef viaField rnp stats).2 nd := by
  unfold buildTranslationNodes
  refine foldl_sound _ ?_ ?_ _ ([], stats) ?_
  · intro acc x
    simp only []
    split
    · exact statsLe_refl _
    · split
      · exact statsLe_refl _
      · rename_i tGloss _
        split
        · exact statsLe_refl _
        · exact computeWarnings_le store native target acc.2 tGloss goalRootRef {}
  · intro acc x hacc
    simp only []
    split
    · exact hacc
    · split
      · exact hacc
      · rename_i tGloss _
        split
        · exact hacc
        · intro nd hnd
          rw [subnodesList_append] at hnd
          rcases List.mem_append.mp hnd with hl | hr
          · exact nodeWarnSound_mono
              (computeWarnings_le store native target acc.2 tGloss goalRootRef {}) (hacc nd hl)
          · rw [subnodesList_cons, subnodesList_nil, List.append_nil, subnodes_eq] at hr
            rcases List.mem_cons.mp hr with he | hf
            · rw [he]
              exact computeWarnings_flags store native target acc.2 tGloss goalRootRef {}
            · rw [TreeNode.children, subnodesList_nil] at hf
              exact absurd hf (List.not_mem_nil nd)
  · intro nd hnd
    rw [subnodesList_nil] at hnd
    exact absurd hnd (List.not_mem_nil nd)

theorem bun_le (store : Store) (native target : String) (uGloss : Gloss)
    (path : List String) (goalRootRef parentRef viaField : String) (stats : TreeStats) :
    statsLe stats (buildUsageNode store native target uGloss path goalRootRef parentRef
      viaField stats).2 := by
  unfold buildUsageNode
  simp only []
  split
  · exact computeWarnings_le _ _ _ _ _ _ _
  · split
    · exact computeWarnings_le _ _ _ _ _ _ _
    · exact statsLe_trans (computeWarnings_le _ _ _ _ _ _ _) (btn_le _ _ _ _ _ _ _ _ _ _ _)

theorem bun_sound (store : Store) (native target : String) (uGloss : Gloss)
    (path : List String) (goalRootRef parentRef viaField : String) (stats : TreeStats) :
    ∀ nd ∈ subnodes (buildUsageNode store native target uGloss path goalRootRef parentRef
        viaField stats).1,
      nodeWarnSound (buildUsageNode store native target uGloss path goalRootRef parentRef
        viaField stats).2 nd := by
  unfold buildUsageNode
  simp only []
  split
  · intro nd hnd
    rw [subnodes_eq] at hnd
    rcases List.mem_cons.mp hnd with he | hf
    · rw [he]
      exact computeWarnings_flags _ _ _ _ _ _ _
    · simp only [TreeNode.children] at hf
      rw [subnodesList_nil] at hf
      exact absurd hf (List.not_mem_nil nd)
  · split
    · intro nd hnd
      rw [subnodes_eq] at hnd
      rcases List.mem_cons.mp hnd with he | hf
      · rw [he]
        exact computeWarnings_flags _ _ _ _ _ _ _
      · simp only [TreeNode.children] at hf
        rw [subnodesList_nil] at hf
        exact absurd hf (List.not_mem_nil nd)
    · intro nd hnd
      rw [subnodes_eq] at hnd
      rcases List.mem_cons.mp hnd with he | hf
      · rw [he]
        refine nodeWarnSound_mono (btn_le _ _ _ _ _ _ _ _ _ _ _) ?_
        exact computeWarnings_flags _ _ _ _ _ _ _
      · simp only [TreeNode.children] at hf
        exact btn_sound _ _ _ _ _ _ _ _ _ _ _ nd hf

theorem usageFold_le (store : Store) (native target : String) (upath : List String)
    (goalRootRef parentKey viaField : String) (refs : List String)
    (acc : List TreeNode × TreeStats) :
    statsLe acc.2 (refs.foldl (fun (acc : List TreeNode × TreeStats) uRef =>
      match resolveReference store uRef with
      | none => acc
      | some uGloss =>
        let un := buildUsageNode store native target uGloss upath goalRootRef
          parentKey viaField acc.2
        (acc.1 ++ [un.1], un.2)) acc).2 := by
  refine foldl_statsLe _ ?_ _ acc
  intro a x
  simp only []
  split
  · exact statsLe_refl _
  · rename_i uGloss _
    exact bun_le store native target uGloss upath goalRootRef parentKey viaField a.2

theorem usageFold_sound (store : Store) (native target : String) (upath : List String)
    (goalRootRef parentKey viaField : String) (refs : List String)
    (acc : List TreeNode × TreeStats)
    (hacc : ∀ nd ∈ subnodesList acc.1, nodeWarnSound acc.2 nd) :
    ∀ nd ∈ subnodesList (refs.foldl (fun (acc : List TreeNode × TreeStats) uRef =>
        match resolveReference store uRef with
        | none => acc
        | some uGloss =>
          let un := buildUsageNode store native target uGloss upath goalRootRef
            parentKey viaField acc.2
          (acc.1 ++ [un.1], un.2)) acc).1,
      nodeWarnSound (refs.foldl (fun (acc : List TreeNode × TreeStats) uRef =>
        match resolveReference store uRef with
        | none => acc
        | some uGloss =>
          let un := buildUsageNode store native target uGloss upath goalRootRef
            parentKey viaField acc.2
          (acc.1 ++ [un.1], un.2)) acc).2 nd := by
  refine foldl_sound _ ?_ ?_ _ acc hacc
  · intro a x
    simp only []
    split
    · exact statsLe_refl _
    · rename_i uGloss _
      exact bun_le store native target uGloss upath goalRootRef parentKey viaField a.2
  · intro a x ha
    simp only []
    split
    · exact ha
    · rename_i uGloss _
      intro nd hnd
      rw [subnodesList_append] at hnd
      rcases List.mem_append.mp hnd with hl | hr
      · exact nodeWarnSound_mono (bun_le store native target uGloss upath goalRootRef parentKey viaField a.2) (ha nd hl)
      · rw [subnodesList_cons, subnodesList_nil, List.append_nil] at hr
        exact bun_sound store native target uGloss upath goalRootRef parentKey viaField a.2 nd hr

theorem tResCase_le (store : Store) (native target : String) (part : Gloss)
    (nextPath : List String) (goalRootRef partKey : String) (rnp : Bool) (s2 : TreeStats)
    (o : Option String) :
    statsLe s2 (match o with
      | none => (([] : List TreeNode), s2)
      | some cp => buildTranslationNodes store native target part cp nextPath goalRootRef
          partKey "translations" rnp s2).2 := by
  cases o
  · exact statsLe_refl _
  · exact btn_le store native target part _ nextPath goalRootRef partKey "translations" rnp s2

theorem tResCase_sound (store : Store) (native target : String) (part : Gloss)
    (nextPath : List String) (goalRootRef partKey : String) (rnp : Bool) (s2 : TreeStats)
    (o : Option String) :
    ∀ nd ∈ subnodesList (match o with
        | none => (([] : List TreeNode), s2)
        | some cp => buildTranslationNodes store native target part cp nextPath goalRootRef
            partKey "translations" rnp s2).1,
      nodeWarnSound (match o with
        | none => (([] : List TreeNode), s2)
        | some cp => buildTranslationNodes store native target part cp nextPath goalRootRef
            partKey "translations" rnp s2).2 nd := by
  cases o
  · intro nd hnd
    rw [subnodesList_nil] at hnd
    exact absurd hnd (List.not_mem_nil nd)
  · exact btn_sound store native target part _ nextPath goalRootRef partKey "translations"
      rnp s2

theorem uResCase_le (store : Store) (native target : String) (upath : List String)
    (goalRootRef parentKey viaField : String) (ue : List String) (b : Bool)
    (t2 : TreeStats) :
    statsLe t2 ((if b then List.foldl (fun (acc : List TreeNode × TreeStats) uRef =>
        match resolveReference store uRef with
        | none => acc
        | some uGloss =>
          let un := buildUsageNode store native target uGloss upath goalRootRef
            parentKey viaField acc.2
          (acc.1 ++ [un.1], un.2)) ([], t2) ue
      else (([] : List TreeNode), t2))).2 := by
  cases b
  · rw [if_neg (by simp)]
    exact statsLe_refl _
  · rw [if_pos rfl]
    exact usageFold_le store native target upath goalRootRef parentKey viaField ue ([], t2)

theorem uResCase_sound (store : Store) (native target : String) (upath : List String)
    (goalRootRef parentKey viaField : String) (ue : List String) (b : Bool)
    (t2 : TreeStats) :
    ∀ nd ∈ subnodesList ((if b then List.foldl (fun (acc : List TreeNode × TreeStats) uRef =>
          match resolveReference store uRef with
          | none => acc
          | some uGloss =>
            let un := buildUsageNode store native target uGloss upath goalRootRef
              parentKey viaField acc.2
            (acc.1 ++ [un.1], un.2)) ([], t2) ue
        else (([] : List TreeNode), t2))).1,
      nodeWarnSound ((if b then List.foldl (fun (acc : List TreeNode × TreeStats) uRef =>
          match resolveReference store uRef with
          | none => acc
          | some uGloss =>
            let un := buildUsageNode store native target uGloss upath goalRootRef
              parentKey viaField acc.2
            (acc.1 ++ [un.1], un.2)) ([], t2) ue
        else (([] : List TreeNode), t2))).2 nd := by
  cases b
  · rw [if_neg (by simp)]
    intro nd hnd
    rw [subnodesList_nil] at hnd
    exact absurd hnd (List.not_mem_nil nd)
  · rw [if_pos rfl]
    refine usageFold_sound store native target upath goalRootRef parentKey viaField ue
      ([], t2) ?_
    intro nd hnd
    rw [subnodesList_nil] at hnd
    exact absurd hnd (List.not_mem_nil nd)

theorem bpl_le_sound (store : Store) (native target goalRootRef learnLang : String)
    (partsLine : Bool) :
    ∀ (skipUsage : Bool) (parentKey : String) (refs path : List String) (stats : TreeStats),
      statsLe stats (bpl store native target goalRootRef learnLang partsLine skipUsage
        parentKey refs path stats).2 ∧
      (∀ nd ∈ subnodesList (bpl store native target goalRootRef learnLang partsLine skipUsage
          parentKey refs path stats).1,
        nodeWarnSound (bpl store native target goalRootRef learnLang partsLine skipUsage
          parentKey refs path stats).2 nd) := by
  intro skipUsage parentKey refs path stats
  induction skipUsage, parentKey, refs, path, stats using
      bpl.induct store native target goalRootRef learnLang partsLine with
  | case1 su pk path stats =>
    rw [bpl_nil]
    refine ⟨statsLe_refl _, ?_⟩
    intro nd hnd
    rw [subnodesList_nil] at hnd
    exact absurd hnd (List.not_mem_nil nd)
  | case2 su pk partRef rest path stats h ih =>
    rw [bpl_cons_none native target goalRootRef learnLang partsLine su pk rest path stats h]
    exact ih
  | case3 su pk partRef rest path stats part h lang counterpart ws partKey s2 hkey ih =>
    rw [bpl_cons_mem native target goalRootRef learnLang partsLine su pk rest path stats
      h hkey]
    simp only []
    have hle1 : statsLe stats s2 :=
      statsLe_trans (computeWarnings_le store native target stats part goalRootRef _)
        (addLearnable_le ws.2 part learnLang partsLine)
    have hle2 : statsLe ws.2 s2 := addLearnable_le ws.2 part learnLang partsLine
    refine ⟨statsLe_trans hle1 ih.1, ?_⟩
    intro nd hnd
    rw [subnodesList_cons] at hnd
    rcases List.mem_append.mp hnd with hl | hr
    · rw [subnodes_eq] at hl
      rcases List.mem_cons.mp hl with he | hf
      · rw [he]
        exact nodeWarnSound_mono (statsLe_trans hle2 ih.1)
          (computeWarnings_flags store native target stats part goalRootRef _)
      · simp only [TreeNode.children] at hf
        rw [subnodesList_nil] at hf
        exact absurd hf (List.not_mem_nil nd)
    · exact ih.2 nd hr
  | case4 su pk partRef rest path stats part h lang counterpart ws partKey s2 hkey
      nextPath tRes uRes pRes ih1 ih2 ih3 ih4 ih5 ih6 =>
    rw [bpl_cons_new native target goalRootRef learnLang partsLine su pk rest path stats
      h hkey]
    simp only []
    have hle1 : statsLe stats ws.2 :=
      computeWarnings_le store native target stats part goalRootRef _
    have hle2 : statsLe ws.2 s2 := addLearnable_le ws.2 part learnLang partsLine
    have hleT : statsLe s2 tRes.2 :=
      tResCase_le store native target part nextPath goalRootRef partKey (lang == native)
        s2 counterpart
    have hleU : statsLe tRes.2 uRes.2 :=
      uResCase_le store native target nextPath goalRootRef partKey "usage_examples"
        part.usage_examples (!su && lang == target) tRes.2
    have hleP : statsLe uRes.2 pRes.2 := ih1.1
    have hsT : ∀ nd ∈ subnodesList tRes.1, nodeWarnSound tRes.2 nd :=
      tResCase_sound store native target part nextPath goalRootRef partKey (lang == native)
        s2 counterpart
    have hsU : ∀ nd ∈ subnodesList uRes.1, nodeWarnSound uRes.2 nd :=
      uResCase_sound store native target nextPath goalRootRef partKey "usage_examples"
        part.usage_examples (!su && lang == target) tRes.2
    have hsP : ∀ nd ∈ subnodesList pRes.1, nodeWarnSound pRes.2 nd := ih1.2
    have hleTail : statsLe pRes.2 (bpl store native target goalRootRef learnLang partsLine
        su pk rest path pRes.2).2 := ih6.1
    have hsTail : ∀ nd ∈ subnodesList (bpl store native target goalRootRef learnLang
        partsLine su pk rest path pRes.2).1,
        nodeWarnSound (bpl store native target goalRootRef learnLang partsLine su pk rest
          path pRes.2).2 nd := ih6.2
    refine ⟨statsLe_trans hle1 (statsLe_trans hle2 (statsLe_trans hleT (statsLe_trans hleU
      (statsLe_trans hleP hleTail)))), ?_⟩
    intro nd hnd
    rw [subnodesList_cons] at hnd
    rcases List.mem_append.mp hnd with hl | hr
    · rw [subnodes_eq] at hl
      rcases List.mem_cons.mp hl with he | hf
      · rw [he]
        exact nodeWarnSound_mono (statsLe_trans hle2 (statsLe_trans hleT (statsLe_trans hleU
          (statsLe_trans hleP hleTail))))
          (computeWarnings_flags store native target stats part goalRootRef _)
      · simp only [TreeNode.children] at hf
        rw [subnodesList_append, subnodesList_append] at hf
        rcases List.mem_append.mp hf with hf1 | hf2
        · rcases List.mem_append.mp hf1 with hft | hfu
          · exact nodeWarnSound_mono (statsLe_trans hleU (statsLe_trans hleP hleTail))
              (hsT nd hft)
          · exact nodeWarnSound_mono (statsLe_trans hleP hleTail) (hsU nd hfu)
        · exact nodeWarnSound_mono hleTail (hsP nd hf2)
    · exact hsTail nd hr

theorem pResCase_le (store : Store) (native target : String) (gl : Gloss)
    (bpath : List String) (goalRootRef learnLang : String) (b : Bool) (t2 : TreeStats) :
    statsLe t2 ((if b then (([] : List TreeNode), t2)
      else buildPartsNodes store native target gl bpath goalRootRef learnLang
        true false t2)).2 := by
  cases b
  · rw [if_neg (by simp)]
    exact (bpl_le_sound store native target goalRootRef learnLang true false
      (glossKey gl) gl.parts bpath t2).1
  · rw [if_pos rfl]
    exact statsLe_refl _

theorem pResCase_sound (store : Store) (native target : String) (gl : Gloss)
    (bpath : List String) (goalRootRef learnLang : String) (b : Bool) (t2 : TreeStats) :
    ∀ nd ∈ subnodesList ((if b then (([] : List TreeNode), t2)
        else buildPartsNodes store native target gl bpath goalRootRef learnLang
          true false t2)).1,
      nodeWarnSound ((if b then (([] : List TreeNode), t2)
        else buildPartsNodes store native target gl bpath goalRootRef learnLang
          true false t2)).2 nd := by
  cases b
  · rw [if_neg (by simp)]
    exact (bpl_le_sound store native target goalRootRef learnLang true false
      (glossKey gl) gl.parts bpath t2).2
  · rw [if_pos rfl]
    intro nd hnd
    rw [subnodesList_nil] at hnd
    exact absurd hnd (List.not_mem_nil nd)

theorem procStep_le (store : Store) (native target goalRootRef learnLang rootKey : String)
    (acc2 : List TreeNode × TreeStats) (tRef : String) :
    statsLe acc2.2 ((fun (acc2 : List TreeNode × TreeStats) tRef =>
      if normalizeLanguageCode ((jsSplit ':' tRef).headD "") != target then acc2
      else
        match resolveReference store tRef with
        | none => acc2
        | some tGloss =>
          if tGloss.tags.contains "eng:paraphrase" then acc2
          else
            let tws := computeWarnings store native target acc2.2 tGloss goalRootRef
              { checkTranslationTo := some native,
                checkParts := true,
                checkUsage := true }
            let tKey := glossKey tGloss
            let branchPath : List String := [rootKey, tKey]
            let btRes := buildTranslationNodes store native target tGloss native
              branchPath goalRootRef tKey "translations" false tws.2
            let uRes :=
              if normalizeLanguageCode tGloss.language == target then
                tGloss.usage_examples.foldl
                  (fun (acc3 : List TreeNode × TreeStats) uRef =>
                    match resolveReference store uRef with
                    | none => acc3
                    | some uGloss =>
                      let un := buildUsageNode store native target uGloss branchPath
                        goalRootRef tKey "usage_examples" acc3.2
                      (acc3.1 ++ [un.1], un.2)) ([], btRes.2)
              else ([], btRes.2)
            let pRes := buildPartsNodes store native target tGloss branchPath
              goalRootRef learnLang true false uRes.2
            (acc2.1 ++ [TreeNode.mk tGloss (paraphraseDisplay tGloss)
              (btRes.1 ++ uRes.1 ++ pRes.1) "" false "translation"
              tws.1.warn_native_missing tws.1.warn_target_missing
              tws.1.warn_usage_missing tws.1.warn_parts_missing "" none
              (some rootKey) (some "translations")], pRes.2)) acc2 tRef).2 := by
  simp only []
  split
  · exact statsLe_refl _
  · split
    · exact statsLe_refl _
    · rename_i tGloss _
      split
      · exact statsLe_refl _
      · have hleW : statsLe acc2.2 (computeWarnings store native target acc2.2 tGloss
            goalRootRef
            { checkTranslationTo := some native, checkParts := true, checkUsage := true }).2 :=
          computeWarnings_le store native target acc2.2 tGloss goalRootRef
            { checkTranslationTo := some native, checkParts := true, checkUsage := true }
        have hleB := btn_le store native target tGloss native
          [rootKey, glossKey tGloss] goalRootRef (glossKey tGloss) "translations" false
          (computeWarnings store native target acc2.2 tGloss goalRootRef
            { checkTranslationTo := some native, checkParts := true, checkUsage := true }).2
        have hleU := uResCase_le store native target
          [rootKey, glossKey tGloss] goalRootRef (glossKey tGloss) "usage_examples"
          tGloss.usage_examples (normalizeLanguageCode tGloss.language == target)
          (buildTranslationNodes store native target tGloss native
            [rootKey, glossKey tGloss] goalRootRef (glossKey tGloss) "translations" false
            (computeWarnings store native target acc2.2 tGloss goalRootRef
              { checkTranslationTo := some native, checkParts := true, checkUsage := true }).2).2
        refine statsLe_trans hleW (statsLe_trans hleB (statsLe_trans hleU ?_))
        exact (bpl_le_sound store native target goalRootRef learnLang true false
          (glossKey tGloss) tGloss.parts [rootKey, glossKey tGloss] _).1

theorem procStep_sound (store : Store) (native target goalRootRef learnLang rootKey : String)
    (acc2 : List TreeNode × TreeStats) (tRef : String)
    (hacc : ∀ nd ∈ subnodesList acc2.1, nodeWarnSound acc2.2 nd) :
    ∀ nd ∈ subnodesList ((fun (acc2 : List TreeNode × TreeStats) tRef =>
      if normalizeLanguageCode ((jsSplit ':' tRef).headD "") != target then acc2
      else
        match resolveReference store tRef with
        | none => acc2
        | some tGloss =>
          if tGloss.tags.contains "eng:paraphrase" then acc2
          else
            let tws := computeWarnings store native target acc2.2 tGloss goalRootRef
              { checkTranslationTo := some native,
                checkParts := true,
                checkUsage := true }
            let tKey := glossKey tGloss
            let branchPath : List String := [rootKey, tKey]
            let btRes := buildTranslationNodes store native target tGloss native
              branchPath goalRootRef tKey "translations" false tws.2
            let uRes :=
              if normalizeLanguageCode tGloss.language == target then
                tGloss.usage_examples.foldl
                  (fun (acc3 : List TreeNode × TreeStats) uRef =>
                    match resolveReference store uRef with
                    | none => acc3
                    | some uGloss =>
                      let un := buildUsageNode store native target uGloss branchPath
                        goalRootRef tKey "usage_examples" acc3.2
                      (acc3.1 ++ [un.1], un.2)) ([], btRes.2)
              else ([], btRes.2)
            let pRes := buildPartsNodes store native target tGloss branchPath
              goalRootRef learnLang true false uRes.2
            (acc2.1 ++ [TreeNode.mk tGloss (paraphraseDisplay tGloss)
              (btRes.1 ++ uRes.1 ++ pRes.1) "" false "translation"
              tws.1.warn_native_missing tws.1.warn_target_missing
              tws.1.warn_usage_missing tws.1.warn_parts_missing "" none
              (some rootKey) (some "translations")], pRes.2)) acc2 tRef).1,
      nodeWarnSound ((fun (acc2 : List TreeNode × TreeStats) tRef =>
      if normalizeLanguageCode ((jsSplit ':' tRef).headD "") != target then acc2
      else
        match resolveReference store tRef with
        | none => acc2
        | some tGloss =>
          if tGloss.tags.contains "eng:paraphrase" then acc2
          else
            let tws := computeWarnings store native target acc2.2 tGloss goalRootRef
              { checkTranslationTo := some native,
                checkParts := true,
                checkUsage := true }
            let tKey := glossKey tGloss
            let branchPath : List String := [rootKey, tKey]
            let btRes := buildTranslationNodes store native target tGloss native
              branchPath goalRootRef tKey "translations" false tws.2
            let uRes :=
              if normalizeLanguageCode tGloss.language == target then
                tGloss.usage_examples.foldl
                  (fun (acc3 : List TreeNode × TreeStats) uRef =>
                    match resolveReference store uRef with
                    | none => acc3
                    | some uGloss =>
                      let un := buildUsageNode store native target uGloss branchPath
                        goalRootRef tKey "usage_examples" acc3.2
                      (acc3.1 ++ [un.1], un.2)) ([], btRes.2)
              else ([], btRes.2)
            let pRes := buildPartsNodes store native target tGloss branchPath
              goalRootRef learnLang true false uRes.2
            (acc2.1 ++ [TreeNode.mk tGloss (paraphraseDisplay tGloss)
              (btRes.1 ++ uRes.1 ++ pRes.1) "" false "translation"
              tws.1.warn_native_missing tws.1.warn_target_missing
              tws.1.warn_usage_missing tws.1.warn_parts_missing "" none
              (some rootKey) (some "translations")], pRes.2)) acc2 tRef).2 nd := by
  simp only []
  split
  · exact hacc
  · split
    · exact hacc
    · rename_i tGloss _
      split
      · exact hacc
      · have hleW : statsLe acc2.2 (computeWarnings store native target acc2.2 tGloss
            goalRootRef { checkTranslationTo := some native, checkParts := true, checkUsage := true }).2 :=
          computeWarnings_le store native target acc2.2 tGloss goalRootRef _
        have hleB : statsLe (computeWarnings store native target acc2.2 tGloss goalRootRef
            { checkTranslationTo := some native, checkParts := true, checkUsage := true }).2
            (buildTranslationNodes store native target tGloss native
              [rootKey, glossKey tGloss] goalRootRef (glossKey tGloss) "translations" false
              (computeWarnings store native target acc2.2 tGloss goalRootRef
                { checkTranslationTo := some native, checkParts := true, checkUsage := true }).2).2 :=
          btn_le store native target tGloss native _ goalRootRef (glossKey tGloss)
            "translations" false _
        intro nd hnd
        rw [subnodesList_append] at hnd
        rcases List.mem_append.mp hnd with hl | hr
        · refine nodeWarnSound_mono ?_ (hacc nd hl)
          refine statsLe_trans hleW (statsLe_trans hleB ?_)
          refine statsLe_trans (uResCase_le store native target
            [rootKey, glossKey tGloss] goalRootRef (glossKey tGloss) "usage_examples"
            tGloss.usage_examples (normalizeLanguageCode tGloss.language == target) _) ?_
          exact (bpl_le_sound store native target goalRootRef learnLang true false
            (glossKey tGloss) tGloss.parts [rootKey, glossKey tGloss] _).1
        · rw [subnodesList_cons, subnodesList_nil, List.append_nil, subnodes_eq] at hr
          rcases List.mem_cons.mp hr with he | hf
          · rw [he]
            refine nodeWarnSound_mono ?_
              (computeWarnings_flags store native target acc2.2 tGloss goalRootRef _)
            refine statsLe_trans hleB ?_
            refine statsLe_trans (uResCase_le store native target
              [rootKey, glossKey tGloss] goalRootRef (glossKey tGloss) "usage_examples"
              tGloss.usage_examples (normalizeLanguageCode tGloss.language == target) _) ?_
            exact (bpl_le_sound store native target goalRootRef learnLang true false
              (glossKey tGloss) tGloss.parts [rootKey, glossKey tGloss] _).1
          · simp only [TreeNode.children] at hf
            rw [subnodesList_append, subnodesList_append] at hf
            rcases List.mem_append.mp hf with hf1 | hf2
            · rcases List.mem_append.mp hf1 with hft | hfu
              · refine nodeWarnSound_mono ?_ (btn_sound store native target tGloss native
                  _ goalRootRef (glossKey tGloss) "translations" false _ nd hft)
                refine statsLe_trans (uResCase_le store native target
                  [rootKey, glossKey tGloss] goalRootRef (glossKey tGloss) "usage_examples"
                  tGloss.usage_examples (normalizeLanguageCode tGloss.language == target)
                  _) ?_
                exact (bpl_le_sound store native target goalRootRef learnLang true false
                  (glossKey tGloss) tGloss.parts [rootKey, glossKey tGloss] _).1
              · refine nodeWarnSound_mono ?_ (uResCase_sound store native target
                  [rootKey, glossKey tGloss] goalRootRef (glossKey tGloss) "usage_examples"
                  tGloss.usage_examples (normalizeLanguageCode tGloss.language == target)
                  _ nd hfu)
                exact (bpl_le_sound store native target goalRootRef learnLang true false
                  (glossKey tGloss) tGloss.parts [rootKey, glossKey tGloss] _).1
            · exact (bpl_le_sound store native target goalRootRef learnLang true false
                (glossKey tGloss) tGloss.parts [rootKey, glossKey tGloss] _).2 nd hf2

theorem procChildren (store : Store) (NATL TATL GRR learnLang rootKey : String)
    (gl : Gloss) (s2 : TreeStats) :
    statsLe s2 (if gl.parts.isEmpty then (([] : List TreeNode), (List.foldl (fun (acc2 : List TreeNode × TreeStats) tRef =>
      if normalizeLanguageCode ((jsSplit ':' tRef).headD "") != TATL then acc2
      else
        match resolveReference store tRef with
        | none => acc2
        | some tGloss =>
          if tGloss.tags.contains "eng:paraphrase" then acc2
          else
            let tws := computeWarnings store NATL TATL acc2.2 tGloss GRR
              { checkTranslationTo := some NATL,
                checkParts := true,
                checkUsage := true }
            let tKey := glossKey tGloss
            let branchPath : List String := [rootKey, tKey]
            let btRes := buildTranslationNodes store NATL TATL tGloss NATL
              branchPath GRR tKey "translations" false tws.2
            let uRes :=
              if normalizeLanguageCode tGloss.language == TATL then
                tGloss.usage_examples.foldl
                  (fun (acc3 : List TreeNode × TreeStats) uRef =>
                    match resolveReference store uRef with
                    | none => acc3
                    | some uGloss =>
                      let un := buildUsageNode store NATL TATL uGloss branchPath
                        GRR tKey "usage_examples" acc3.2
                      (acc3.1 ++ [un.1], un.2)) ([], btRes.2)
              else ([], btRes.2)
            let pRes := buildPartsNodes store NATL TATL tGloss branchPath
              GRR learnLang true false uRes.2
            (acc2.1 ++ [TreeNode.mk tGloss (paraphraseDisplay tGloss)
              (btRes.1 ++ uRes.1 ++ pRes.1) "" false "translation"
              tws.1.warn_native_missing tws.1.warn_target_missing
              tws.1.warn_usage_missing tws.1.warn_parts_missing "" none
              (some rootKey) (some "translations")], pRes.2)) ([], s2) gl.translations).2)
      else buildPartsNodes store NATL TATL gl [rootKey] GRR learnLang true false
        (List.foldl (fun (acc2 : List TreeNode × TreeStats) tRef =>
      if normalizeLanguageCode ((jsSplit ':' tRef).headD "") != TATL then acc2
      else
        match resolveReference store tRef with
        | none => acc2
        | some tGloss =>
          if tGloss.tags.contains "eng:paraphrase" then acc2
          else
            let tws := computeWarnings store NATL TATL acc2.2 tGloss GRR
              { checkTranslationTo := some NATL,
                checkParts := true,
                checkUsage := true }
            let tKey := glossKey tGloss
            let branchPath : List String := [rootKey, tKey]
            let btRes := buildTranslationNodes store NATL TATL tGloss NATL
              branchPath GRR tKey "translations" false tws.2
            let uRes :=
              if normalizeLanguageCode tGloss.language == TATL then
                tGloss.usage_examples.foldl
                  (fun (acc3 : List TreeNode × TreeStats) uRef =>
                    match resolveReference store uRef with
                    | none => acc3
                    | some uGloss =>
                      let un := buildUsageNode store NATL TATL uGloss branchPath
                        GRR tKey "usage_examples" acc3.2
                      (acc3.1 ++ [un.1], un.2)) ([], btRes.2)
              else ([], btRes.2)
            let pRes := buildPartsNodes store NATL TATL tGloss branchPath
              GRR learnLang true false uRes.2
            (acc2.1 ++ [TreeNode.mk tGloss (paraphraseDisplay tGloss)
              (btRes.1 ++ uRes.1 ++ pRes.1) "" false "translation"
              tws.1.warn_native_missing tws.1.warn_target_missing
              tws.1.warn_usage_missing tws.1.warn_parts_missing "" none
              (some rootKey) (some "translations")], pRes.2)) ([], s2) gl.translations).2).2 ∧
    ∀ nd ∈ subnodesList ((List.foldl (fun (acc2 : List TreeNode × TreeStats) tRef =>
      if normalizeLanguageCode ((jsSplit ':' tRef).headD "") != TATL then acc2
      else
        match resolveReference store tRef with
        | none => acc2
        | some tGloss =>
          if tGloss.tags.contains "eng:paraphrase" then acc2
          else
            let tws := computeWarnings store NATL TATL acc2.2 tGloss GRR
              { checkTranslationTo := some NATL,
                checkParts := true,
                checkUsage := true }
            let tKey := glossKey tGloss
            let branchPath : List String := [rootKey, tKey]
            let btRes := buildTranslationNodes store NATL TATL tGloss NATL
              branchPath GRR tKey "translations" false tws.2
            let uRes :=
              if normalizeLanguageCode tGloss.language == TATL then
                tGloss.usage_examples.foldl
                  (fun (acc3 : List TreeNode × TreeStats) uRef =>
                    match resolveReference store uRef with
                    | none => acc3
                    | some uGloss =>
                      let un := buildUsageNode store NATL TATL uGloss branchPath
                        GRR tKey "usage_examples" acc3.2
                      (acc3.1 ++ [un.1], un.2)) ([], btRes.2)
              else ([], btRes.2)
            let pRes := buildPartsNodes store NATL TATL tGloss branchPath
              GRR learnLang true false uRes.2
            (acc2.1 ++ [TreeNode.mk tGloss (paraphraseDisplay tGloss)
              (btRes.1 ++ uRes.1 ++ pRes.1) "" false "translation"
              tws.1.warn_native_missing tws.1.warn_target_missing
              tws.1.warn_usage_missing tws.1.warn_parts_missing "" none
              (some rootKey) (some "translations")], pRes.2)) ([], s2) gl.translations).1 ++
        (if gl.parts.isEmpty then (([] : List TreeNode), (List.foldl (fun (acc2 : List TreeNode × TreeStats) tRef =>
      if normalizeLanguageCode ((jsSplit ':' tRef).headD "") != TATL then acc2
      else
        match resolveReference store tRef with
        | none => acc2
        | some tGloss =>
          if tGloss.tags.contains "eng:paraphrase" then acc2
          else
            let tws := computeWarnings store NATL TATL acc2.2 tGloss GRR
              { checkTranslationTo := some NATL,
                checkParts := true,
                checkUsage := true }
            let tKey := glossKey tGloss
            let branchPath : List String := [rootKey, tKey]
            let btRes := buildTranslationNodes store NATL TATL tGloss NATL
              branchPath GRR tKey "translations" false tws.2
            let uRes :=
              if normalizeLanguageCode tGloss.language == TATL then
                tGloss.usage_examples.foldl
                  (fun (acc3 : List TreeNode × TreeStats) uRef =>
                    match resolveReference store uRef with
                    | none => acc3
                    | some uGloss =>
                      let un := buildUsageNode store NATL TATL uGloss branchPath
                        GRR tKey "usage_examples" acc3.2
                      (acc3.1 ++ [un.1], un.2)) ([], btRes.2)
              else ([], btRes.2)
            let pRes := buildPartsNodes store NATL TATL tGloss branchPath
              GRR learnLang true false uRes.2
            (acc2.1 ++ [TreeNode.mk tGloss (paraphraseDisplay tGloss)
              (btRes.1 ++ uRes.1 ++ pRes.1) "" false "translation"
              tws.1.warn_native_missing tws.1.warn_target_missing
              tws.1.warn_usage_missing tws.1.warn_parts_missing "" none
              (some rootKey) (some "translations")], pRes.2)) ([], s2) gl.translations).2)
      else buildPartsNodes store NATL TATL gl [rootKey] GRR learnLang true false
        (List.foldl (fun (acc2 : List TreeNode × TreeStats) tRef =>
      if normalizeLanguageCode ((jsSplit ':' tRef).headD "") != TATL then acc2
      else
        match resolveReference store tRef with
        | none => acc2
        | some tGloss =>
          if tGloss.tags.contains "eng:paraphrase" then acc2
          else
            let tws := computeWarnings store NATL TATL acc2.2 tGloss GRR
              { checkTranslationTo := some NATL,
                checkParts := true,
                checkUsage := true }
            let tKey := glossKey tGloss
            let branchPath : List String := [rootKey, tKey]
            let btRes := buildTranslationNodes store NATL TATL tGloss NATL
              branchPath GRR tKey "translations" false tws.2
            let uRes :=
              if normalizeLanguageCode tGloss.language == TATL then
                tGloss.usage_examples.foldl
                  (fun (acc3 : List TreeNode × TreeStats) uRef =>
                    match resolveReference store uRef with
                    | none => acc3
                    | some uGloss =>
                      let un := buildUsageNode store NATL TATL uGloss branchPath
                        GRR tKey "usage_examples" acc3.2
                      (acc3.1 ++ [un.1], un.2)) ([], btRes.2)
              else ([], btRes.2)
            let pRes := buildPartsNodes store NATL TATL tGloss branchPath
              GRR learnLang true false uRes.2
            (acc2.1 ++ [TreeNode.mk tGloss (paraphraseDisplay tGloss)
              (btRes.1 ++ uRes.1 ++ pRes.1) "" false "translation"
              tws.1.warn_native_missing tws.1.warn_target_missing
              tws.1.warn_usage_missing tws.1.warn_parts_missing "" none
              (some rootKey) (some "translations")], pRes.2)) ([], s2) gl.translations).2).1),
      nodeWarnSound (if gl.parts.isEmpty then (([] : List TreeNode), (List.foldl (fun (acc2 : List TreeNode × TreeStats) tRef =>
      if normalizeLanguageCode ((jsSplit ':' tRef).headD "") != TATL then acc2
      else
        match resolveReference store tRef with
        | none => acc2
        | some tGloss =>
          if tGloss.tags.contains "eng:paraphrase" then acc2
          else
            let tws := computeWarnings store NATL TATL acc2.2 tGloss GRR
              { checkTranslationTo := some NATL,
                checkParts := true,
                checkUsage := true }
            let tKey := glossKey tGloss
            let branchPath : List String := [rootKey, tKey]
            let btRes := buildTranslationNodes store NATL TATL tGloss NATL
              branchPath GRR tKey "translations" false tws.2
            let uRes :=
              if normalizeLanguageCode tGloss.language == TATL then
                tGloss.usage_examples.foldl
                  (fun (acc3 : List TreeNode × TreeStats) uRef =>
                    match resolveReference store uRef with
                    | none => acc3
                    | some uGloss =>
                      let un := buildUsageNode store NATL TATL uGloss branchPath
                        GRR tKey "usage_examples" acc3.2
                      (acc3.1 ++ [un.1], un.2)) ([], btRes.2)
              else ([], btRes.2)
            let pRes := buildPartsNodes store NATL TATL tGloss branchPath
              GRR learnLang true false uRes.2
            (acc2.1 ++ [TreeNode.mk tGloss (paraphraseDisplay tGloss)
              (btRes.1 ++ uRes.1 ++ pRes.1) "" false "translation"
              tws.1.warn_native_missing tws.1.warn_target_missing
              tws.1.warn_usage_missing tws.1.warn_parts_missing "" none
              (some rootKey) (some "translations")], pRes.2)) ([], s2) gl.translations).2)
      else buildPartsNodes store NATL TATL gl [rootKey] GRR learnLang true false
        (List.foldl (fun (acc2 : List TreeNode × TreeStats) tRef =>
      if normalizeLanguageCode ((jsSplit ':' tRef).headD "") != TATL then acc2
      else
        match resolveReference store tRef with
        | none => acc2
        | some tGloss =>
          if tGloss.tags.contains "eng:paraphrase" then acc2
          else
            let tws := computeWarnings store NATL TATL acc2.2 tGloss GRR
              { checkTranslationTo := some NATL,
                checkParts := true,
                checkUsage := true }
            let tKey := glossKey tGloss
            let branchPath : List String := [rootKey, tKey]
            let btRes := buildTranslationNodes store NATL TATL tGloss NATL
              branchPath GRR tKey "translations" false tws.2
            let uRes :=
              if normalizeLanguageCode tGloss.language == TATL then
                tGloss.usage_examples.foldl
                  (fun (acc3 : List TreeNode × TreeStats) uRef =>
                    match resolveReference store uRef with
                    | none => acc3
                    | some uGloss =>
                      let un := buildUsageNode store NATL TATL uGloss branchPath
                        GRR tKey "usage_examples" acc3.2
                      (acc3.1 ++ [un.1], un.2)) ([], btRes.2)
              else ([], btRes.2)
            let pRes := buildPartsNodes store NATL TATL tGloss branchPath
              GRR learnLang true false uRes.2
            (acc2.1 ++ [TreeNode.mk tGloss (paraphraseDisplay tGloss)
              (btRes.1 ++ uRes.1 ++ pRes.1) "" false "translation"
              tws.1.warn_native_missing tws.1.warn_target_missing
              tws.1.warn_usage_missing tws.1.warn_parts_missing "" none
              (some rootKey) (some "translations")], pRes.2)) ([], s2) gl.translations).2).2 nd := by
  have hT1 : statsLe s2 (List.foldl (fun (acc2 : List TreeNode × TreeStats) tRef =>
      if normalizeLanguageCode ((jsSplit ':' tRef).headD "") != TATL then acc2
      else
        match resolveReference store tRef with
        | none => acc2
        | some tGloss =>
          if tGloss.tags.contains "eng:paraphrase" then acc2
          else
            let tws := computeWarnings store NATL TATL acc2.2 tGloss GRR
              { checkTranslationTo := some NATL,
                checkParts := true,
                checkUsage := true }
            let tKey := glossKey tGloss
            let branchPath : List String := [rootKey, tKey]
            let btRes := buildTranslationNodes store NATL TATL tGloss NATL
              branchPath GRR tKey "translations" false tws.2
            let uRes :=
              if normalizeLanguageCode tGloss.language == TATL then
                tGloss.usage_examples.foldl
                  (fun (acc3 : List TreeNode × TreeStats) uRef =>
                    match resolveReference store uRef with
                    | none => acc3
                    | some uGloss =>
                      let un := buildUsageNode store NATL TATL uGloss branchPath
                        GRR tKey "usage_examples" acc3.2
                      (acc3.1 ++ [un.1], un.2)) ([], btRes.2)
              else ([], btRes.2)
            let pRes := buildPartsNodes store NATL TATL tGloss branchPath
              GRR learnLang true false uRes.2
            (acc2.1 ++ [TreeNode.mk tGloss (paraphraseDisplay tGloss)
              (btRes.1 ++ uRes.1 ++ pRes.1) "" false "translation"
              tws.1.warn_native_missing tws.1.warn_target_missing
              tws.1.warn_usage_missing tws.1.warn_parts_missing "" none
              (some rootKey) (some "translations")], pRes.2)) ([], s2) gl.translations).2 :=
    foldl_statsLe _ (procStep_le store NATL TATL GRR learnLang rootKey) gl.translations
      ([], s2)
  have hT2 : ∀ nd ∈ subnodesList (List.foldl (fun (acc2 : List TreeNode × TreeStats) tRef =>
      if normalizeLanguageCode ((jsSplit ':' tRef).headD "") != TATL then acc2
      else
        match resolveReference store tRef with
        | none => acc2
        | some tGloss =>
          if tGloss.tags.contains "eng:paraphrase" then acc2
          else
            let tws := computeWarnings store NATL TATL acc2.2 tGloss GRR
              { checkTranslationTo := some NATL,
                checkParts := true,
                checkUsage := true }
            let tKey := glossKey tGloss
            let branchPath : List String := [rootKey, tKey]
            let btRes := buildTranslationNodes store NATL TATL tGloss NATL
              branchPath GRR tKey "translations" false tws.2
            let uRes :=
              if normalizeLanguageCode tGloss.language == TATL then
                tGloss.usage_examples.foldl
                  (fun (acc3 : List TreeNode × TreeStats) uRef =>
                    match resolveReference store uRef with
                    | none => acc3
                    | some uGloss =>
                      let un := buildUsageNode store NATL TATL uGloss branchPath
                        GRR tKey "usage_examples" acc3.2
                      (acc3.1 ++ [un.1], un.2)) ([], btRes.2)
              else ([], btRes.2)
            let pRes := buildPartsNodes store NATL TATL tGloss branchPath
              GRR learnLang true false uRes.2
            (acc2.1 ++ [TreeNode.mk tGloss (paraphraseDisplay tGloss)
              (btRes.1 ++ uRes.1 ++ pRes.1) "" false "translation"
              tws.1.warn_native_missing tws.1.warn_target_missing
              tws.1.warn_usage_missing tws.1.warn_parts_missing "" none
              (some rootKey) (some "translations")], pRes.2)) ([], s2) gl.translations).1,
      nodeWarnSound (List.foldl (fun (acc2 : List TreeNode × TreeStats) tRef =>
      if normalizeLanguageCode ((jsSplit ':' tRef).headD "") != TATL then acc2
      else
        match resolveReference store tRef with
        | none => acc2
        | some tGloss =>
          if tGloss.tags.contains "eng:paraphrase" then acc2
          else
            let tws := computeWarnings store NATL TATL acc2.2 tGloss GRR
              { checkTranslationTo := some NATL,
                checkParts := true,
                checkUsage := true }
            let tKey := glossKey tGloss
            let branchPath : List String := [rootKey, tKey]
            let btRes := buildTranslationNodes store NATL TATL tGloss NATL
              branchPath GRR tKey "translations" false tws.2
            let uRes :=
              if normalizeLanguageCode tGloss.language == TATL then
                tGloss.usage_examples.foldl
                  (fun (acc3 : List TreeNode × TreeStats) uRef =>
                    match resolveReference store uRef with
                    | none => acc3
                    | some uGloss =>
                      let un := buildUsageNode store NATL TATL uGloss branchPath
                        GRR tKey "usage_examples" acc3.2
                      (acc3.1 ++ [un.1], un.2)) ([], btRes.2)
              else ([], btRes.2)
            let pRes := buildPartsNodes store NATL TATL tGloss branchPath
              GRR learnLang true false uRes.2
            (acc2.1 ++ [TreeNode.mk tGloss (paraphraseDisplay tGloss)
              (btRes.1 ++ uRes.1 ++ pRes.1) "" false "translation"
              tws.1.warn_native_missing tws.1.warn_target_missing
              tws.1.warn_usage_missing tws.1.warn_parts_missing "" none
              (some rootKey) (some "translations")], pRes.2)) ([], s2) gl.translations).2 nd := by
    refine foldl_sound _ (procStep_le store NATL TATL GRR learnLang rootKey)
      (procStep_sound store NATL TATL GRR learnLang rootKey) gl.translations ([], s2) ?_
    intro nd hnd
    rw [subnodesList_nil] at hnd
    exact absurd hnd (List.not_mem_nil nd)
  have hP1 : statsLe (List.foldl (fun (acc2 : List TreeNode × TreeStats) tRef =>
      if normalizeLanguageCode ((jsSplit ':' tRef).headD "") != TATL then acc2
      else
        match resolveReference store tRef with
        | none => acc2
        | some tGloss =>
          if tGloss.tags.contains "eng:paraphrase" then acc2
          else
            let tws := computeWarnings store NATL TATL acc2.2 tGloss GRR
              { checkTranslationTo := some NATL,
                checkParts := true,
                checkUsage := true }
            let tKey := glossKey tGloss
            let branchPath : List String := [rootKey, tKey]
            let btRes := buildTranslationNodes store NATL TATL tGloss NATL
              branchPath GRR tKey "translations" false tws.2
            let uRes :=
              if normalizeLanguageCode tGloss.language == TATL then
                tGloss.usage_examples.foldl
                  (fun (acc3 : List TreeNode × TreeStats) uRef =>
                    match resolveReference store uRef with
                    | none => acc3
                    | some uGloss =>
                      let un := buildUsageNode store NATL TATL uGloss branchPath
                        GRR tKey "usage_examples" acc3.2
                      (acc3.1 ++ [un.1], un.2)) ([], btRes.2)
              else ([], btRes.2)
            let pRes := buildPartsNodes store NATL TATL tGloss branchPath
              GRR learnLang true false uRes.2
            (acc2.1 ++ [TreeNode.mk tGloss (paraphraseDisplay tGloss)
              (btRes.1 ++ uRes.1 ++ pRes.1) "" false "translation"
              tws.1.warn_native_missing tws.1.warn_target_missing
              tws.1.warn_usage_missing tws.1.warn_parts_missing "" none
              (some rootKey) (some "translations")], pRes.2)) ([], s2) gl.translations).2 (if gl.parts.isEmpty then (([] : List TreeNode), (List.foldl (fun (acc2 : List TreeNode × TreeStats) tRef =>
      if normalizeLanguageCode ((jsSplit ':' tRef).headD "") != TATL then acc2
      else
        match resolveReference store tRef with
        | none => acc2
        | some tGloss =>
          if tGloss.tags.contains "eng:paraphrase" then acc2
          else
            let tws := computeWarnings store NATL TATL acc2.2 tGloss GRR
              { checkTranslationTo := some NATL,
                checkParts := true,
                checkUsage := true }
            let tKey := glossKey tGloss
            let branchPath : List String := [rootKey, tKey]
            let btRes := buildTranslationNodes store NATL TATL tGloss NATL
              branchPath GRR tKey "translations" false tws.2
            let uRes :=
              if normalizeLanguageCode tGloss.language == TATL then
                tGloss.usage_examples.foldl
                  (fun (acc3 : List TreeNode × TreeStats) uRef =>
                    match resolveReference store uRef with
                    | none => acc3
                    | some uGloss =>
                      let un := buildUsageNode store NATL TATL uGloss branchPath
                        GRR tKey "usage_examples" acc3.2
                      (acc3.1 ++ [un.1], un.2)) ([], btRes.2)
              else ([], btRes.2)
            let pRes := buildPartsNodes store NATL TATL tGloss branchPath
              GRR learnLang true false uRes.2
            (acc2.1 ++ [TreeNode.mk tGloss (paraphraseDisplay tGloss)
              (btRes.1 ++ uRes.1 ++ pRes.1) "" false "translation"
              tws.1.warn_native_missing tws.1.warn_target_missing
              tws.1.warn_usage_missing tws.1.warn_parts_missing "" none
              (some rootKey) (some "translations")], pRes.2)) ([], s2) gl.translations).2)
      else buildPartsNodes store NATL TATL gl [rootKey] GRR learnLang true false
        (List.foldl (fun (acc2 : List TreeNode × TreeStats) tRef =>
      if normalizeLanguageCode ((jsSplit ':' tRef).headD "") != TATL then acc2
      else
        match resolveReference store tRef with
        | none => acc2
        | some tGloss =>
          if tGloss.tags.contains "eng:paraphrase" then acc2
          else
            let tws := computeWarnings store NATL TATL acc2.2 tGloss GRR
              { checkTranslationTo := some NATL,
                checkParts := true,
                checkUsage := true }
            let tKey := glossKey tGloss
            let branchPath : List String := [rootKey, tKey]
            let btRes := buildTranslationNodes store NATL TATL tGloss NATL
              branchPath GRR tKey "translations" false tws.2
            let uRes :=
              if normalizeLanguageCode tGloss.language == TATL then
                tGloss.usage_examples.foldl
                  (fun (acc3 : List TreeNode × TreeStats) uRef =>
                    match resolveReference store uRef with
                    | none => acc3
                    | some uGloss =>
                      let un := buildUsageNode store NATL TATL uGloss branchPath
                        GRR tKey "usage_examples" acc3.2
                      (acc3.1 ++ [un.1], un.2)) ([], btRes.2)
              else ([], btRes.2)
            let pRes := buildPartsNodes store NATL TATL tGloss branchPath
              GRR learnLang true false uRes.2
            (acc2.1 ++ [TreeNode.mk tGloss (paraphraseDisplay tGloss)
              (btRes.1 ++ uRes.1 ++ pRes.1) "" false "translation"
              tws.1.warn_native_missing tws.1.warn_target_missing
              tws.1.warn_usage_missing tws.1.warn_parts_missing "" none
              (some rootKey) (some "translations")], pRes.2)) ([], s2) gl.translations).2).2 :=
    pResCase_le store NATL TATL gl [rootKey] GRR learnLang gl.parts.isEmpty _
  have hP2 : ∀ nd ∈ subnodesList (if gl.parts.isEmpty then (([] : List TreeNode), (List.foldl (fun (acc2 : List TreeNode × TreeStats) tRef =>
      if normalizeLanguageCode ((jsSplit ':' tRef).headD "") != TATL then acc2
      else
        match resolveReference store tRef with
        | none => acc2
        | some tGloss =>
          if tGloss.tags.contains "eng:paraphrase" then acc2
          else
            let tws := computeWarnings store NATL TATL acc2.2 tGloss GRR
              { checkTranslationTo := some NATL,
                checkParts := true,
                checkUsage := true }
            let tKey := glossKey tGloss
            let branchPath : List String := [rootKey, tKey]
            let btRes := buildTranslationNodes store NATL TATL tGloss NATL
              branchPath GRR tKey "translations" false tws.2
            let uRes :=
              if normalizeLanguageCode tGloss.language == TATL then
                tGloss.usage_examples.foldl
                  (fun (acc3 : List TreeNode × TreeStats) uRef =>
                    match resolveReference store uRef with
                    | none => acc3
                    | some uGloss =>
                      let un := buildUsageNode store NATL TATL uGloss branchPath
                        GRR tKey "usage_examples" acc3.2
                      (acc3.1 ++ [un.1], un.2)) ([], btRes.2)
              else ([], btRes.2)
            let pRes := buildPartsNodes store NATL TATL tGloss branchPath
              GRR learnLang true false uRes.2
            (acc2.1 ++ [TreeNode.mk tGloss (paraphraseDisplay tGloss)
              (btRes.1 ++ uRes.1 ++ pRes.1) "" false "translation"
              tws.1.warn_native_missing tws.1.warn_target_missing
              tws.1.warn_usage_missing tws.1.warn_parts_missing "" none
              (some rootKey) (some "translations")], pRes.2)) ([], s2) gl.translations).2)
      else buildPartsNodes store NATL TATL gl [rootKey] GRR learnLang true false
        (List.foldl (fun (acc2 : List TreeNode × TreeStats) tRef =>
      if normalizeLanguageCode ((jsSplit ':' tRef).headD "") != TATL then acc2
      else
        match resolveReference store tRef with
        | none => acc2
        | some tGloss =>
          if tGloss.tags.contains "eng:paraphrase" then acc2
          else
            let tws := computeWarnings store NATL TATL acc2.2 tGloss GRR
              { checkTranslationTo := some NATL,
                checkParts := true,
                checkUsage := true }
            let tKey := glossKey tGloss
            let branchPath : List String := [rootKey, tKey]
            let btRes := buildTranslationNodes store NATL TATL tGloss NATL
              branchPath GRR tKey "translations" false tws.2
            let uRes :=
              if normalizeLanguageCode tGloss.language == TATL then
                tGloss.usage_examples.foldl
                  (fun (acc3 : List TreeNode × TreeStats) uRef =>
                    match resolveReference store uRef with
                    | none => acc3
                    | some uGloss =>
                      let un := buildUsageNode store NATL TATL uGloss branchPath
                        GRR tKey "usage_examples" acc3.2
                      (acc3.1 ++ [un.1], un.2)) ([], btRes.2)
              else ([], btRes.2)
            let pRes := buildPartsNodes store NATL TATL tGloss branchPath
              GRR learnLang true false uRes.2
            (acc2.1 ++ [TreeNode.mk tGloss (paraphraseDisplay tGloss)
              (btRes.1 ++ uRes.1 ++ pRes.1) "" false "translation"
              tws.1.warn_native_missing tws.1.warn_target_missing
              tws.1.warn_usage_missing tws.1.warn_parts_missing "" none
              (some rootKey) (some "translations")], pRes.2)) ([], s2) gl.translations).2).1,
      nodeWarnSound (if gl.parts.isEmpty then (([] : List TreeNode), (List.foldl (fun (acc2 : List TreeNode × TreeStats) tRef =>
      if normalizeLanguageCode ((jsSplit ':' tRef).headD "") != TATL then acc2
      else
        match resolveReference store tRef with
        | none => acc2
        | some tGloss =>
          if tGloss.tags.contains "eng:paraphrase" then acc2
          else
            let tws := computeWarnings store NATL TATL acc2.2 tGloss GRR
              { checkTranslationTo := some NATL,
                checkParts := true,
                checkUsage := true }
            let tKey := glossKey tGloss
            let branchPath : List String := [rootKey, tKey]
            let btRes := buildTranslationNodes store NATL TATL tGloss NATL
              branchPath GRR tKey "translations" false tws.2
            let uRes :=
              if normalizeLanguageCode tGloss.language == TATL then
                tGloss.usage_examples.foldl
                  (fun (acc3 : List TreeNode × TreeStats) uRef =>
                    match resolveReference store uRef with
                    | none => acc3
                    | some uGloss =>
                      let un := buildUsageNode store NATL TATL uGloss branchPath
                        GRR tKey "usage_examples" acc3.2
                      (acc3.1 ++ [un.1], un.2)) ([], btRes.2)
              else ([], btRes.2)
            let pRes := buildPartsNodes store NATL TATL tGloss branchPath
              GRR learnLang true false uRes.2
            (acc2.1 ++ [TreeNode.mk tGloss (paraphraseDisplay tGloss)
              (btRes.1 ++ uRes.1 ++ pRes.1) "" false "translation"
              tws.1.warn_native_missing tws.1.warn_target_missing
              tws.1.warn_usage_missing tws.1.warn_parts_missing "" none
              (some rootKey) (some "translations")], pRes.2)) ([], s2) gl.translations).2)
      else buildPartsNodes store NATL TATL gl [rootKey] GRR learnLang true false
        (List.foldl (fun (acc2 : List TreeNode × TreeStats) tRef =>
      if normalizeLanguageCode ((jsSplit ':' tRef).headD "") != TATL then acc2
      else
        match resolveReference store tRef with
        | none => acc2
        | some tGloss =>
          if tGloss.tags.contains "eng:paraphrase" then acc2
          else
            let tws := computeWarnings store NATL TATL acc2.2 tGloss GRR
              { checkTranslationTo := some NATL,
                checkParts := true,
                checkUsage := true }
            let tKey := glossKey tGloss
            let branchPath : List String := [rootKey, tKey]
            let btRes := buildTranslationNodes store NATL TATL tGloss NATL
              branchPath GRR tKey "translations" false tws.2
            let uRes :=
              if normalizeLanguageCode tGloss.language == TATL then
                tGloss.usage_examples.foldl
                  (fun (acc3 : List TreeNode × TreeStats) uRef =>
                    match resolveReference store uRef with
                    | none => acc3
                    | some uGloss =>
                      let un := buildUsageNode store NATL TATL uGloss branchPath
                        GRR tKey "usage_examples" acc3.2
                      (acc3.1 ++ [un.1], un.2)) ([], btRes.2)
              else ([], btRes.2)
            let pRes := buildPartsNodes store NATL TATL tGloss branchPath
              GRR learnLang true false uRes.2
            (acc2.1 ++ [TreeNode.mk tGloss (paraphraseDisplay tGloss)
              (btRes.1 ++ uRes.1 ++ pRes.1) "" false "translation"
              tws.1.warn_native_missing tws.1.warn_target_missing
              tws.1.warn_usage_missing tws.1.warn_parts_missing "" none
              (some rootKey) (some "translations")], pRes.2)) ([], s2) gl.translations).2).2 nd :=
    pResCase_sound store NATL TATL gl [rootKey] GRR learnLang gl.parts.isEmpty _
  refine ⟨statsLe_trans hT1 hP1, ?_⟩
  intro nd hnd
  rw [subnodesList_append] at hnd
  rcases List.mem_append.mp hnd with hl | hr
  · exact nodeWarnSound_mono hP1 (hT2 nd hl)
  · exact hP2 nd hr

theorem understChildren (store : Store) (NATL TATL GRR learnLang rootKey : String)
    (gl : Gloss) (s2 : TreeStats) :
    statsLe s2 (buildPartsNodes store NATL TATL gl [rootKey] GRR learnLang true false
      (buildTranslationNodes store NATL TATL gl NATL [rootKey] GRR rootKey "translations"
        false s2).2).2 ∧
    ∀ nd ∈ subnodesList ((buildTranslationNodes store NATL TATL gl NATL [rootKey] GRR
        rootKey "translations" false s2).1 ++
        (buildPartsNodes store NATL TATL gl [rootKey] GRR learnLang true false
          (buildTranslationNodes store NATL TATL gl NATL [rootKey] GRR rootKey
            "translations" false s2).2).1),
      nodeWarnSound (buildPartsNodes store NATL TATL gl [rootKey] GRR learnLang true false
        (buildTranslationNodes store NATL TATL gl NATL [rootKey] GRR rootKey "translations"
          false s2).2).2 nd := by
  have hT1 := btn_le store NATL TATL gl NATL [rootKey] GRR rootKey "translations" false s2
  have hT2 := btn_sound store NATL TATL gl NATL [rootKey] GRR rootKey "translations"
    false s2
  have hP := bpl_le_sound store NATL TATL GRR learnLang true false (glossKey gl) gl.parts
    [rootKey]
    (buildTranslationNodes store NATL TATL gl NATL [rootKey] GRR rootKey "translations"
      false s2).2
  refine ⟨statsLe_trans hT1 hP.1, ?_⟩
  intro nd hnd
  rw [subnodesList_append] at hnd
  rcases List.mem_append.mp hnd with hl | hr
  · exact nodeWarnSound_mono hP.1 (hT2 nd hl)
  · exact hP.2 nd hr

theorem bgn_sound (situation : Gloss) (store : Store) (nL tL : String) :
    ∀ nd ∈ subnodesList (buildGoalNodes situation store nL tL).1,
      nodeWarnSound (buildGoalNodes situation store nL tL).2 nd := by
  unfold buildGoalNodes
  refine foldl_sound _ ?_ ?_ _ ([], {}) ?_
  · intro acc x
    simp only []
    split
    · exact statsLe_refl _
    · rename_i gloss _
      split
      · exact statsLe_refl _
      · rename_i goalKind _
        cases goalKind
        · have h1 := computeWarnings_le store (normalizeLanguageCode nL)
            (normalizeLanguageCode tL) acc.2 gloss
            (gloss.language ++ ":" ++ (if gloss.slug = "" then gloss.content else gloss.slug))
            { checkTranslationTo := some (normalizeLanguageCode tL), requireNonParaphrase := true, checkParts := true, checkUsage := false }
          have h2 := statsLe_trans h1 (addLearnable_le _ gloss (normalizeLanguageCode nL) true)
          have h3 := statsLe_trans h2 (foldl_statsLe _
            (procStep_le store (normalizeLanguageCode nL) (normalizeLanguageCode tL)
              (gloss.language ++ ":" ++
                (if gloss.slug = "" then gloss.content else gloss.slug))
              (normalizeLanguageCode nL) (glossKey gloss))
            gloss.translations ([], _))
          have h4 := statsLe_trans h3 (pResCase_le store (normalizeLanguageCode nL)
            (normalizeLanguageCode tL) gloss [glossKey gloss]
            (gloss.language ++ ":" ++ (if gloss.slug = "" then gloss.content else gloss.slug))
            (normalizeLanguageCode nL) gloss.parts.isEmpty _)
          exact h4
        · have h1 := computeWarnings_le store (normalizeLanguageCode nL)
            (normalizeLanguageCode tL) acc.2 gloss
            (gloss.language ++ ":" ++ (if gloss.slug = "" then gloss.content else gloss.slug))
            { checkTranslationTo := some (normalizeLanguageCode nL), requireNonParaphrase := false, checkParts := true, checkUsage := false }
          have h2 := statsLe_trans h1 (addLearnable_le _ gloss (normalizeLanguageCode tL) true)
          have h3 := statsLe_trans h2 (btn_le store (normalizeLanguageCode nL)
            (normalizeLanguageCode tL) gloss (normalizeLanguageCode nL) [glossKey gloss]
            (gloss.language ++ ":" ++ (if gloss.slug = "" then gloss.content else gloss.slug))
            (glossKey gloss) "translations" false _)
          have h4 := statsLe_trans h3 (bpl_le_sound store (normalizeLanguageCode nL)
            (normalizeLanguageCode tL)
            (gloss.language ++ ":" ++ (if gloss.slug = "" then gloss.content else gloss.slug))
            (normalizeLanguageCode tL) true false (glossKey gloss) gloss.parts
            [glossKey gloss] _).1
          exact h4
  · intro acc x hacc
    simp only []
    split
    · exact hacc
    · rename_i gloss _
      split
      · exact hacc
      · rename_i goalKind _
        cases goalKind
        · have hQ := procChildren store (normalizeLanguageCode nL) (normalizeLanguageCode tL)
            (gloss.language ++ ":" ++ (if gloss.slug = "" then gloss.content else gloss.slug))
            (normalizeLanguageCode nL) (glossKey gloss) gloss
            (addLearnable (computeWarnings store (normalizeLanguageCode nL)
            (normalizeLanguageCode tL) acc.2 gloss
            (gloss.language ++ ":" ++ (if gloss.slug = "" then gloss.content else gloss.slug))
            { checkTranslationTo := some (normalizeLanguageCode tL), requireNonParaphrase := true, checkParts := true, checkUsage := false }).2
              gloss (normalizeLanguageCode nL) true)
          have hWF := statsLe_trans (addLearnable_le (computeWarnings store (normalizeLanguageCode nL)
            (normalizeLanguageCode tL) acc.2 gloss
            (gloss.language ++ ":" ++ (if gloss.slug = "" then gloss.content else gloss.slug))
            { checkTranslationTo := some (normalizeLanguageCode tL), requireNonParaphrase := true, checkParts := true, checkUsage := false }).2
            gloss (normalizeLanguageCode nL) true) hQ.1
          have hAF := statsLe_trans (computeWarnings_le store (normalizeLanguageCode nL)
            (normalizeLanguageCode tL) acc.2 gloss
            (gloss.language ++ ":" ++ (if gloss.slug = "" then gloss.content else gloss.slug))
            { checkTranslationTo := some (normalizeLanguageCode tL), requireNonParaphrase := true, checkParts := true, checkUsage := false }) hWF
          intro nd hnd
          rw [subnodesList_append] at hnd
          rcases List.mem_append.mp hnd with hl | hr
          · exact nodeWarnSound_mono hAF (hacc nd hl)
          · rw [subnodesList_cons, subnodesList_nil, List.append_nil, subnodes_eq] at hr
            rcases List.mem_cons.mp hr with he | hf
            · rw [he]
              exact nodeWarnSound_mono hWF (computeWarnings_flags store
                (normalizeLanguageCode nL) (normalizeLanguageCode tL) acc.2 gloss
                (gloss.language ++ ":" ++ (if gloss.slug = "" then gloss.content else gloss.slug))
                { checkTranslationTo := some (normalizeLanguageCode tL), requireNonParaphrase := true, checkParts := true, checkUsage := false })
            · simp only [TreeNode.children] at hf
              exact hQ.2 nd hf
        · have hQ := understChildren store (normalizeLanguageCode nL) (normalizeLanguageCode tL)
            (gloss.language ++ ":" ++ (if gloss.slug = "" then gloss.content else gloss.slug))
            (normalizeLanguageCode tL) (glossKey gloss) gloss
            (addLearnable (computeWarnings store (normalizeLanguageCode nL)
            (normalizeLanguageCode tL) acc.2 gloss
            (gloss.language ++ ":" ++ (if gloss.slug = "" then gloss.content else gloss.slug))
            { checkTranslationTo := some (normalizeLanguageCode nL), requireNonParaphrase := false, checkParts := true, checkUsage := false }).2
              gloss (normalizeLanguageCode tL) true)
          have hWF := statsLe_trans (addLearnable_le (computeWarnings store (normalizeLanguageCode nL)
            (normalizeLanguageCode tL) acc.2 gloss
            (gloss.language ++ ":" ++ (if gloss.slug = "" then gloss.content else gloss.slug))
            { checkTranslationTo := some (normalizeLanguageCode nL), requireNonParaphrase := false, checkParts := true, checkUsage := false }).2
            gloss (normalizeLanguageCode tL) true) hQ.1
          have hAF := statsLe_trans (computeWarnings_le store (normalizeLanguageCode nL)
            (normalizeLanguageCode tL) acc.2 gloss
            (gloss.language ++ ":" ++ (if gloss.slug = "" then gloss.content else gloss.slug))
            { checkTranslationTo := some (normalizeLanguageCode nL), requireNonParaphrase := false, checkParts := true, checkUsage := false }) hWF
          intro nd hnd
          rw [subnodesList_append] at hnd
          rcases List.mem_append.mp hnd with hl | hr
          · exact nodeWarnSound_mono hAF (hacc nd hl)
          · rw [subnodesList_cons, subnodesList_nil, List.append_nil, subnodes_eq] at hr
            rcases List.mem_cons.mp hr with he | hf
            · rw [he]
              exact nodeWarnSound_mono hWF (computeWarnings_flags store
                (normalizeLanguageCode nL) (normalizeLanguageCode tL) acc.2 gloss
                (gloss.language ++ ":" ++ (if gloss.slug = "" then gloss.content else gloss.slug))
                { checkTranslationTo := some (normalizeLanguageCode nL), requireNonParaphrase := false, checkParts := true, checkUsage := false })
            · simp only [TreeNode.children] at hf
              exact hQ.2 nd hf
  · intro nd hnd
    rw [subnodesList_nil] at hnd
    exact absurd hnd (List.not_mem_nil nd)

theorem c9w_mem :
    (TreeNode.mk c9wgoal "w" [] "UNDR " true "root" true false false true "red"
        (some "understanding") (some "eng:s") (some "children")) ∈
      subnodesList (buildGoalNodes c9wsit c9wstore "eng" "spa").1 := by
  have e1 : normalizeLanguageCode "eng" = "eng" := rfl
  have e2 : normalizeLanguageCode "spa" = "spa" := rfl
  have hres : resolveReference c9wstore "spa:w" = some c9wgoal := by decide
  have hd : detectGoalType c9wgoal "eng" "spa" = some GoalType.understanding := by decide
  simp only [buildGoalNodes, e1, e2, List.foldl_cons, List.foldl_nil, hres, hd]
  simp +decide +ground [buildPartsNodes, bpl_nil, bpl_cons_none, bpl_cons_mem, bpl_cons_new,
    determineGoalState, spcList_nil, spcList_cons_none, spcList_cons_mem, spcList_cons_new,
    subnodes, subnodesList]

/-- C9 (amended): the per-node warning flags are sound with respect to the
final stats — whenever a node raises a warning flag, the key of its gloss is
in the corresponding missing set of the stats `buildGoalNodes` returns.  (The
converse direction of the claimed agreement is false, see the
counterexample: a flag can be `false` for a node created before a later node
recorded the same gloss as missing.) -/
theorem c9_warn_flags_sound (situation : Gloss) (store : Store) (nL tL : String)
    (n : TreeNode) (hn : n ∈ subnodesList (buildGoalNodes situation store nL tL).1) :
    nodeWarnSound (buildGoalNodes situation store nL tL).2 n :=
  bgn_sound situation store nL tL n hn

theorem c9_warn_flags_sound_witness :
    (TreeNode.mk c9wgoal "w" [] "UNDR " true "root" true false false true "red"
        (some "understanding") (some "eng:s") (some "children")) ∈
      subnodesList (buildGoalNodes c9wsit c9wstore "eng" "spa").1 ∧
    nodeWarnSound (buildGoalNodes c9wsit c9wstore "eng" "spa").2
      (TreeNode.mk c9wgoal "w" [] "UNDR " true "root" true false false true "red"
        (some "understanding") (some "eng:s") (some "children")) :=
  ⟨c9w_mem, c9_warn_flags_sound c9wsit c9wstore "eng" "spa" _ c9w_mem⟩
